import Mathlib

/-
Verification of the swimo session/token lifecycle engine.

Part A embeds the token codec (pkg/security/jwt.go): claim construction,
JWT signing and verification.  The cryptographic and serialization
collaborators from the Go standard library (HMAC-SHA256, base64url
decoding, JSON unmarshalling) are external to the repository; the codec
definitions are parametrized over them, and concrete executable models
are provided for evaluating closed instances.

Part B embeds the session store adapter (internal/auth repository) and
the session lifecycle usecase (internal/auth usecase) as pure functions
over an explicit database state, with wall-clock time passed explicitly
in Unix seconds and store faults injected through explicit flags.
-/

set_option maxRecDepth 40000

namespace Swimo

/-- Claim mirrors the Go struct `security.Claim`: six exported fields with
no JSON struct tags.  `Aid`/`Uid` are nullable pointers in Go, modelled
as `Option String`; `Iat`/`Exp` are Unix seconds (`int64`). -/
structure Claim where
  Sub : String
  Aid : Option String
  Uid : Option String
  Kind : String
  Iat : Int
  Exp : Int
deriving DecidableEq, Repr

/-- JwtErr mirrors the three error values of pkg/security/jwt.go:
`ErrInvalidToken`, `ErrInvalidSignature`, `ErrExpiredToken`. -/
inductive JwtErr where
  | invalidToken
  | invalidSignature
  | expiredToken
deriving DecidableEq, Repr

/-- goSplitAux is the worker for `goSplit`; it mirrors Go's
`strings.Split(s, ".")`: fields between dots, empty fields kept. -/
def goSplitAux : List Char → List Char → List String
  | [], acc => [String.mk acc.reverse]
  | c :: rest, acc =>
      if c = '.' then String.mk acc.reverse :: goSplitAux rest []
      else goSplitAux rest (c :: acc)

/-- goSplit models Go's `strings.Split(token, ".")`. -/
def goSplit (s : String) : List String :=
  goSplitAux s.toList []

/-- b64Alphabet is the base64url alphabet used by Go's
`base64.RawURLEncoding`. -/
def b64Alphabet : List Char :=
  "ABCDEFGHIJKLMNOPQRSTUVWXYZabcdefghijklmnopqrstuvwxyz0123456789-_".toList

/-- b64Char maps a 6-bit group to its base64url character. -/
def b64Char (n : Nat) : Char := b64Alphabet.getD n 'A'

/-- b64Index is the inverse lookup of `b64Char`; `none` for characters
outside the base64url alphabet (Go's decoder rejects those). -/
def b64Index (c : Char) : Option Nat := b64Alphabet.findIdx? (· = c)

/-- b64EncodeChunks encodes a byte list three bytes at a time, exactly as
`base64.RawURLEncoding.EncodeToString` does (no padding). -/
def b64EncodeChunks : List Nat → List Char
  | [] => []
  | [b1] => [b64Char (b1 / 4), b64Char (b1 % 4 * 16)]
  | [b1, b2] => [b64Char (b1 / 4), b64Char (b1 % 4 * 16 + b2 / 16), b64Char (b2 % 16 * 4)]
  | b1 :: b2 :: b3 :: rest =>
      b64Char (b1 / 4) :: b64Char (b1 % 4 * 16 + b2 / 16) ::
      b64Char (b2 % 16 * 4 + b3 / 64) :: b64Char (b3 % 64) :: b64EncodeChunks rest

/-- b64urlEncode models `base64.RawURLEncoding.EncodeToString`. -/
def b64urlEncode (bs : List Nat) : String := String.mk (b64EncodeChunks bs)

/-- b64DecodeChunks decodes base64url characters four at a time; a
remainder of one character is invalid, remainders of two or three yield
one or two bytes with excess bits dropped (Go's non-strict decoder). -/
def b64DecodeChunks : List Char → Option (List Nat)
  | [] => some []
  | [_] => none
  | [c1, c2] => do
      let n1 ← b64Index c1
      let n2 ← b64Index c2
      pure [n1 * 4 + n2 / 16]
  | [c1, c2, c3] => do
      let n1 ← b64Index c1
      let n2 ← b64Index c2
      let n3 ← b64Index c3
      pure [n1 * 4 + n2 / 16, n2 % 16 * 16 + n3 / 4]
  | c1 :: c2 :: c3 :: c4 :: rest => do
      let n1 ← b64Index c1
      let n2 ← b64Index c2
      let n3 ← b64Index c3
      let n4 ← b64Index c4
      let tl ← b64DecodeChunks rest
      pure ((n1 * 4 + n2 / 16) :: (n2 % 16 * 16 + n3 / 4) :: (n3 % 4 * 64 + n4) :: tl)

/-- b64urlDecode models `base64.RawURLEncoding.DecodeString`; like Go's
decoder it ignores carriage returns and newlines in the input. -/
def b64urlDecode (s : String) : Option (List Nat) :=
  b64DecodeChunks (s.toList.filter (fun c => c != '\r' && c != '\n'))

/-- charUtf8 encodes one character as UTF-8 bytes (Go strings are byte
strings; the codec hashes and base64-encodes UTF-8 bytes). -/
def charUtf8 (c : Char) : List Nat :=
  let n := c.toNat
  if n < 128 then [n]
  else if n < 2048 then [192 + n / 64, 128 + n % 64]
  else if n < 65536 then [224 + n / 4096, 128 + n / 64 % 64, 128 + n % 64]
  else [240 + n / 262144, 128 + n / 4096 % 64, 128 + n / 64 % 64, 128 + n % 64]

/-- utf8Bytes produces the UTF-8 byte sequence of a string. -/
def utf8Bytes (s : String) : List Nat := s.toList.flatMap charUtf8

/-- hexDigit renders one hex digit, lowercase (as encoding/json does in
its `\u00xx` escapes). -/
def hexDigit (n : Nat) : Char :=
  "0123456789abcdef".toList.getD n '0'

/-- jsonEscapeChar models encoding/json's default string escaping
(HTML-escaping on): quote, backslash, newline, carriage return, tab,
angle brackets and ampersand, other control characters as u-escapes. -/
def jsonEscapeChar (c : Char) : String :=
  if c = '"' then "\\\""
  else if c = '\\' then "\\\\"
  else if c = '\n' then "\\n"
  else if c = '\r' then "\\r"
  else if c = '\t' then "\\t"
  else if c = '<' then "\\u003c"
  else if c = '>' then "\\u003e"
  else if c = '&' then "\\u0026"
  else if c.toNat < 32 then
    String.mk ['\\', 'u', '0', '0', hexDigit (c.toNat / 16), hexDigit (c.toNat % 16)]
  else String.singleton c

/-- jsonQuote models encoding/json's rendering of a Go string value. -/
def jsonQuote (s : String) : String :=
  "\"" ++ String.join (s.toList.map jsonEscapeChar) ++ "\""

/-- jsonNullable renders a nullable string pointer: Go marshals a nil
pointer as the literal `null` (it is not omitted without an omitempty
tag). -/
def jsonNullable : Option String → String
  | none => "null"
  | some s => jsonQuote s

/-- jsonMarshalClaim models `json.Marshal` on `security.Claim`.  The
struct has no JSON tags, so encoding/json emits the exported Go field
names `Sub`, `Aid`, `Uid`, `Kind`, `Iat`, `Exp`, in declaration order,
with nil pointers rendered as `null`. -/
def jsonMarshalClaim (c : Claim) : String :=
  "\x7b\"Sub\":" ++ jsonQuote c.Sub ++
  ",\"Aid\":" ++ jsonNullable c.Aid ++
  ",\"Uid\":" ++ jsonNullable c.Uid ++
  ",\"Kind\":" ++ jsonQuote c.Kind ++
  ",\"Iat\":" ++ toString c.Iat ++
  ",\"Exp\":" ++ toString c.Exp ++ "\x7d"

/-- jwtHeaderJson is the fixed header literal of signJWT in jwt.go. -/
def jwtHeaderJson : String := "\x7b\"alg\":\"HS256\",\"typ\":\"JWT\"\x7d"

/-- signJWT mirrors `security.signJWT`: base64url header and payload
joined by a dot, followed by the signature produced by the HMAC
collaborator `mac` (which stands for `signHMACSHA256`, i.e. the
base64url-encoded HMAC-SHA256 of the data under the secret). -/
def signJWT (mac : String → String → String) (claims : Claim) (secret : String) : String :=
  let header := b64urlEncode (utf8Bytes jwtHeaderJson)
  let payloadEnc := b64urlEncode (utf8Bytes (jsonMarshalClaim claims))
  let data := header ++ "." ++ payloadEnc
  data ++ "." ++ mac data secret

/-- accessTokenClaims is the claim set built by `security.NewAccessToken`
at time `now` (Unix seconds): issued-at `now`, expiry `now + ttl`. -/
def accessTokenClaims (ttl : Int) (sessionId kind : String)
    (accountId userId : Option String) (now : Int) : Claim :=
  { Sub := sessionId, Aid := accountId, Uid := userId, Kind := kind,
    Iat := now, Exp := now + ttl }

/-- NewAccessToken mirrors `security.NewAccessToken`, returning the
signed token and the expiry timestamp. -/
def NewAccessToken (mac : String → String → String) (secret : String) (ttl : Int)
    (sessionId kind : String) (accountId userId : Option String) (now : Int) :
    String × Int :=
  (signJWT mac (accessTokenClaims ttl sessionId kind accountId userId now) secret, now + ttl)

/-- VerifyJWT mirrors `security.VerifyJWT`: split into exactly three
parts, constant-time-compare the signature (byte equality), base64url-
decode the payload, JSON-parse it via the collaborator `parseClaim`
(standing for `json.Unmarshal` into `Claim`), reject an empty subject,
then reject if `now > Exp`. -/
def VerifyJWT (mac : String → String → String) (parseClaim : List Nat → Option Claim)
    (now : Int) (token secret : String) : Except JwtErr Claim :=
  match goSplit token with
  | [p0, p1, p2] =>
    let data := p0 ++ "." ++ p1
    if mac data secret = p2 then
      match b64urlDecode p1 with
      | none => .error .invalidToken
      | some payloadBytes =>
        match parseClaim payloadBytes with
        | none => .error .invalidToken
        | some claims =>
          if claims.Sub = "" then .error .invalidToken
          else if now > claims.Exp then .error .expiredToken
          else .ok claims
    else .error .invalidSignature
  | _ => .error .invalidToken

/-- parseQuotedAux scans a JSON string body after the opening quote,
unescaping the escapes that `jsonEscapeChar` can produce (the u-escape
forms are not needed by the closed instances and are rejected). -/
def parseQuotedAux : List Char → List Char → Option (String × List Char)
  | [], _ => none
  | '"' :: rest, acc => some (String.mk acc.reverse, rest)
  | '\\' :: '"' :: rest, acc => parseQuotedAux rest ('"' :: acc)
  | '\\' :: '\\' :: rest, acc => parseQuotedAux rest ('\\' :: acc)
  | '\\' :: 'n' :: rest, acc => parseQuotedAux rest ('\n' :: acc)
  | '\\' :: 'r' :: rest, acc => parseQuotedAux rest ('\r' :: acc)
  | '\\' :: 't' :: rest, acc => parseQuotedAux rest ('\t' :: acc)
  | '\\' :: _ :: _, _ => none
  | ['\\'], _ => none
  | c :: rest, acc => parseQuotedAux rest (c :: acc)

/-- parseQuoted consumes a quoted JSON string. -/
def parseQuoted : List Char → Option (String × List Char)
  | '"' :: rest => parseQuotedAux rest []
  | _ => none

/-- parseNullableStr consumes either the literal `null` or a quoted
string (the two forms `jsonNullable` produces). -/
def parseNullableStr : List Char → Option (Option String × List Char)
  | 'n' :: 'u' :: 'l' :: 'l' :: rest => some (none, rest)
  | l => (parseQuoted l).map (fun p => (some p.1, p.2))

/-- parseDigitsAux accumulates decimal digits; at least one digit must
have been seen by the caller. -/
def parseDigitsAux : List Char → Nat → Nat × List Char
  | c :: rest, acc =>
      if c.isDigit then parseDigitsAux rest (acc * 10 + (c.toNat - 48))
      else (acc, c :: rest)
  | [], acc => (acc, [])

/-- parseIntTok consumes an optionally negated decimal integer. -/
def parseIntTok : List Char → Option (Int × List Char)
  | '-' :: c :: rest =>
      if c.isDigit then
        let p := parseDigitsAux (c :: rest) 0
        some (-(p.1 : Int), p.2)
      else none
  | c :: rest =>
      if c.isDigit then
        let p := parseDigitsAux (c :: rest) 0
        some ((p.1 : Int), p.2)
      else none
  | [] => none

/-- expectLit consumes an exact literal character sequence. -/
def expectLit (pat : String) (l : List Char) : Option (List Char) :=
  if pat.toList.isPrefixOf l then some (l.drop pat.toList.length) else none

/-- jsonParseClaimChars parses the object grammar that `jsonMarshalClaim`
emits: the six keys in declaration order with string, nullable-string
and integer values. -/
def jsonParseClaimChars (l0 : List Char) : Option Claim := do
  let l ← expectLit "\x7b\"Sub\":" l0
  let (sub, l) ← parseQuoted l
  let l ← expectLit ",\"Aid\":" l
  let (aid, l) ← parseNullableStr l
  let l ← expectLit ",\"Uid\":" l
  let (uid, l) ← parseNullableStr l
  let l ← expectLit ",\"Kind\":" l
  let (kind, l) ← parseQuoted l
  let l ← expectLit ",\"Iat\":" l
  let (iat, l) ← parseIntTok l
  let l ← expectLit ",\"Exp\":" l
  let (exp, l) ← parseIntTok l
  let l ← expectLit "\x7d" l
  if l = [] then some ⟨sub, aid, uid, kind, iat, exp⟩ else none

/-- jsonParseClaimModel is the concrete executable model of the stdlib
collaborator `json.Unmarshal` into `security.Claim`, restricted to the
ASCII output format of `jsonMarshalClaim` (which is all the closed
instances below feed it). -/
def jsonParseClaimModel (bs : List Nat) : Option Claim :=
  if bs.all (· < 128) then jsonParseClaimChars (bs.map Char.ofNat) else none

/-- macModel is a concrete executable stand-in for `signHMACSHA256`
(base64url-encoded HMAC-SHA256 over the data under the secret): a
deterministic function of data and secret whose output, like real
base64url text, contains no dot.  The theorems below never rely on any
cryptographic property of the HMAC collaborator, only on its
determinism, so closed instances may use this model. -/
def macModel (data secret : String) : String :=
  b64urlEncode (utf8Bytes (secret ++ "|" ++ data))

/-
Part B: the session store adapter (part_008 `authRepository`) and the
session lifecycle usecase (part_010 `authUsecase`), embedded as pure
functions over an explicit database state.  Wall-clock time (`NOW()`,
`time.Now()`) is one explicit Unix-seconds parameter per call; the
random refresh secret drawn by `NewSession` is an explicit parameter;
transport-level store failures are injected through explicit flags.
-/

/-- Account is a row of the `accounts` table (float-valued profile
metrics live in `users` and are carried there). -/
structure Account where
  id : String
  email : String
  passwordHash : String
  isLocked : Bool
deriving DecidableEq, Repr

/-- UserRow is a row of the `users` table; the numeric profile metrics
(float64 in Go) are inert for every claim and are not carried. -/
structure UserRow where
  id : String
  accountId : String
  name : String
deriving DecidableEq, Repr

/-- Session is the `auth.Session` entity together with the `created_at`
column that the sessions table stores (used by the guest rate count). -/
structure Session where
  ID : String
  AccountID : Option String
  Kind : String
  RefreshTokenHash : String
  ExpiresAt : Int
  RefreshExpiresAt : Int
  UserAgent : String
  RevokedAt : Option Int
  CreatedAt : Int
deriving DecidableEq, Repr

/-- DB is the relational store state: the three tables and a counter
used to mint fresh row ids (modelling generated UUID primary keys). -/
structure DB where
  accounts : List Account
  users : List UserRow
  sessions : List Session
  nextId : Nat
deriving DecidableEq, Repr

/-- freshId renders the next generated row id. -/
def freshId (db : DB) : String := "row" ++ toString db.nextId

/-- RepoErr covers the error values surfaced by the repository layer:
`pgx.ErrNoRows`, the mapped unique-violation `ErrAccountExists`, and
transport-level store failures. -/
inductive RepoErr where
  | noRows
  | accountExists
  | storeFail
deriving DecidableEq, Repr

/-- UCErr is the error taxonomy of the usecase layer: the business
errors of part_010 plus propagated repository errors. -/
inductive UCErr where
  | invalidCreds
  | locked
  | guestDisabled
  | guestLimited
  | expiredRefreshToken
  | accountExists
  | noRows
  | storeFail
deriving DecidableEq, Repr

/-- repoToUC maps a repository error propagated unchanged by the
usecase (Go returns the underlying error value as-is). -/
def repoToUC : RepoErr → UCErr
  | .noRows => .noRows
  | .accountExists => .accountExists
  | .storeFail => .storeFail

/-- AuthConfig carries the configuration fields the auth usecase
consumes (TTLs in seconds, rate ceiling per minute). -/
structure AuthConfig where
  jwtSecret : String
  jwtAccessTTL : Int
  jwtRefreshTTL : Int
  guestEnabled : Bool
  guestRatePerMinute : Int
deriving Repr

/-- Faults injects transport-level failures into individual store
round-trips, modelling `pgx` returning a non-business error with no
state change. -/
structure Faults where
  createAccountFail : Bool
  createUserFail : Bool
  commitFail : Bool
  revokeFail : Bool
  getProfileIdFail : Bool
  createSessionFail : Bool
  countFail : Bool
deriving DecidableEq, Repr

/-- noFaults is the fault-free execution. -/
def noFaults : Faults :=
  ⟨false, false, false, false, false, false, false⟩

/-- AuthRow is the joined row `GetAuthByEmail` scans (accounts joined
with users on account id). -/
structure AuthRow where
  accountId : String
  email : String
  passwordHash : String
  isLocked : Bool
  name : String
deriving DecidableEq, Repr

/-- getAuthByEmail mirrors `authRepository.GetAuthByEmail`: a join of
accounts and users filtered on the exact email, with `pgx.ErrNoRows`
already mapped to `ErrInvalidCreds` inside the repository. -/
def getAuthByEmail (db : DB) (email : String) : Except UCErr AuthRow :=
  match db.accounts.find? (fun a => a.email == email) with
  | none => .error .invalidCreds
  | some a =>
    match db.users.find? (fun u => u.accountId == a.id) with
    | none => .error .invalidCreds
    | some u => .ok ⟨a.id, a.email, a.passwordHash, a.isLocked, u.name⟩

/-- createAccount mirrors `authRepository.CreateAccount`: insert into
accounts, mapping a unique-violation on the email to `ErrAccountExists`. -/
def createAccount (db : DB) (email passwordHash : String) :
    Except RepoErr (String × DB) :=
  if db.accounts.any (fun a => a.email == email) then .error .accountExists
  else
    let id := freshId db
    .ok (id, { db with accounts := db.accounts ++ [⟨id, email, passwordHash, false⟩],
                       nextId := db.nextId + 1 })

/-- createUser mirrors `authRepository.CreateUser`: insert into users,
mapping a unique violation (one profile per account) to
`ErrAccountExists`. -/
def createUser (db : DB) (accountId name : String) :
    Except RepoErr (String × DB) :=
  if db.users.any (fun u => u.accountId == accountId) then .error .accountExists
  else
    let id := freshId db
    .ok (id, { db with users := db.users ++ [⟨id, accountId, name⟩],
                       nextId := db.nextId + 1 })

/-- NewSessionData is the `auth.Session` value built by `NewSession`
before insertion (no id, no revocation, expiries relative to now). -/
structure NewSessionData where
  AccountID : Option String
  RefreshTokenHash : String
  ExpiresAt : Int
  RefreshExpiresAt : Int
  UserAgent : String
deriving DecidableEq, Repr

/-- NewSession mirrors `auth.NewSession`: a fresh refresh secret (the
explicit `fresh` parameter standing for `NewRefreshToken(32)`), access
expiry `now + JWTAccessTTL`, refresh expiry `now + JWTRefreshTTL`. -/
def NewSession (cfg : AuthConfig) (userAgent : String) (accountId : Option String)
    (fresh : String) (now : Int) : NewSessionData :=
  { AccountID := accountId, RefreshTokenHash := fresh,
    ExpiresAt := now + cfg.jwtAccessTTL,
    RefreshExpiresAt := now + cfg.jwtRefreshTTL, UserAgent := userAgent }

/-- createUserSession mirrors `authRepository.CreateUserSession`:
insert with `kind='user'` and the session's account id. -/
def createUserSession (db : DB) (now : Int) (s : NewSessionData) : String × DB :=
  let id := freshId db
  (id, { db with
           sessions := db.sessions ++
             [⟨id, s.AccountID, "user", s.RefreshTokenHash, s.ExpiresAt,
               s.RefreshExpiresAt, s.UserAgent, none, now⟩],
           nextId := db.nextId + 1 })

/-- createGuestSession mirrors `authRepository.CreateGuestSession`: the
SQL inserts `NULL` for account_id and `'guest'` for kind regardless of
the session value. -/
def createGuestSession (db : DB) (now : Int) (s : NewSessionData) : String × DB :=
  let id := freshId db
  (id, { db with
           sessions := db.sessions ++
             [⟨id, none, "guest", s.RefreshTokenHash, s.ExpiresAt,
               s.RefreshExpiresAt, s.UserAgent, none, now⟩],
           nextId := db.nextId + 1 })

/-- countRecentGuestByUsertAgent mirrors the repository's counting
query (the Go method name carries the same typo): guest sessions of
this user agent created at or after `since`, regardless of revocation. -/
def countRecentGuestByUsertAgent (db : DB) (userAgent : String) (since : Int) : Int :=
  ((db.sessions.filter (fun s =>
      decide (s.Kind = "guest" ∧ s.UserAgent = userAgent ∧ since ≤ s.CreatedAt))).length : Int)

/-- sessionLiveForRefresh is the WHERE filter of
`GetSessionByRefreshToken`: exact hash match, not revoked, refresh
expiry strictly in the future. -/
def sessionLiveForRefresh (hash : String) (now : Int) (s : Session) : Bool :=
  decide (s.RefreshTokenHash = hash ∧ s.RevokedAt = none ∧ now < s.RefreshExpiresAt)

/-- getSessionByRefreshToken mirrors the repository lookup: the first
row passing the server-side filter, `none` standing for `pgx.ErrNoRows`. -/
def getSessionByRefreshToken (db : DB) (now : Int) (hash : String) : Option Session :=
  db.sessions.find? (sessionLiveForRefresh hash now)

/-- revokeTarget is the WHERE filter of `RevokeSessionById`: the row
with this id whose revoked_at is still null. -/
def revokeTarget (sessionId : String) (s : Session) : Bool :=
  decide (s.ID = sessionId ∧ s.RevokedAt = none)

/-- revokeSessionById mirrors `authRepository.RevokeSessionById`: set
revoked_at = now on the unrevoked row with this id; the
`RETURNING id` scan yields `pgx.ErrNoRows` when no row was updated
(absent or already revoked), so the adapter returns an error in that
case. -/
def revokeSessionById (db : DB) (now : Int) (sessionId : String) : Except RepoErr DB :=
  if db.sessions.any (revokeTarget sessionId) then
    .ok { db with sessions := db.sessions.map (fun s =>
            if revokeTarget sessionId s then { s with RevokedAt := some now } else s) }
  else .error .noRows

/-- revokeByAccountTarget is the WHERE filter of
`RevokeSessionByAccountId`: same account and user agent, not revoked,
access expiry strictly in the future. -/
def revokeByAccountTarget (accountId userAgent : String) (now : Int) (s : Session) : Bool :=
  decide (s.AccountID = some accountId ∧ s.UserAgent = userAgent ∧
          s.RevokedAt = none ∧ now < s.ExpiresAt)

/-- revokeSessionByAccountId mirrors `authRepository.RevokeSessionByAccountId`,
with the same `pgx.ErrNoRows` result when no row matches. -/
def revokeSessionByAccountId (db : DB) (now : Int) (accountId userAgent : String) :
    Except RepoErr DB :=
  if db.sessions.any (revokeByAccountTarget accountId userAgent now) then
    .ok { db with sessions := db.sessions.map (fun s =>
            if revokeByAccountTarget accountId userAgent now s then
              { s with RevokedAt := some now } else s) }
  else .error .noRows

/-- getIdByAccountId mirrors `userRepository.GetIdByAccountId`: the id
of the first users row with this account id, `none` for
`pgx.ErrNoRows`. -/
def getIdByAccountId (db : DB) (accountId : String) : Option String :=
  (db.users.find? (fun u => u.accountId == accountId)).map (fun u => u.id)

/-- goIsSpace models `unicode.IsSpace` on the ASCII whitespace
characters `strings.TrimSpace` trims. -/
def goIsSpace (c : Char) : Bool :=
  decide (c = ' ' ∨ c = '\t' ∨ c = '\n' ∨ c = '\r')

/-- goTrimSpace models `strings.TrimSpace`: drop whitespace from both
ends. -/
def goTrimSpace (s : String) : String :=
  String.mk (((s.toList.dropWhile goIsSpace).reverse.dropWhile goIsSpace).reverse)

/-- goToLower models `strings.ToLower` (ASCII case folding). -/
def goToLower (s : String) : String :=
  String.mk (s.toList.map Char.toLower)

/-- normalizeEmail is the usecase's email normalization:
`strings.TrimSpace(strings.ToLower(email))`. -/
def normalizeEmail (s : String) : String := goTrimSpace (goToLower s)

/-- SignUpRequest carries the sign-up fields the usecase reads (the
numeric profile metrics are inert for every claim). -/
structure SignUpRequest where
  email : String
  password : String
  name : String
deriving DecidableEq, Repr

/-- AccessTokenResp is the `auth.AccessToken` value returned by
`createSessionToken`: signed access token, opaque refresh credential,
milliseconds until access expiry. -/
structure AccessTokenResp where
  Token : String
  RefreshToken : String
  ExpiresInMs : Int
deriving DecidableEq, Repr

/-- SignUp mirrors `authUsecase.SignUp`.  The bcrypt hash of the
password is the explicit `hash` parameter (the hashing collaborator).
The pgx transaction is modelled by threading a transaction-local state:
every error path returns before commit and the deferred rollback
discards the transaction, so the caller observes the original state;
only a successful commit installs the new state. -/
def SignUp (f : Faults) (db : DB) (req : SignUpRequest) (hash : String) :
    Except UCErr Unit × DB :=
  let email := normalizeEmail req.email
  if f.createAccountFail then (.error .storeFail, db)
  else
    match createAccount db email hash with
    | .error e => (.error (repoToUC e), db)
    | .ok (accountID, tx1) =>
      if f.createUserFail then (.error .storeFail, db)
      else
        match createUser tx1 accountID (goTrimSpace req.name) with
        | .error e => (.error (repoToUC e), db)
        | .ok (_, tx2) =>
          if f.commitFail then (.error .storeFail, db)
          else (.ok (), tx2)

/-- createSessionToken mirrors `authUsecase.createSessionToken`: build
the session value, insert it as guest or user (resolving the profile id
first for the user kind), then sign the access token over the new
session id. -/
def createSessionToken (cfg : AuthConfig) (f : Faults)
    (mac : String → String → String) (db : DB) (now : Int)
    (kind userAgent : String) (accountId : Option String) (fresh : String) :
    Except UCErr AccessTokenResp × DB :=
  let session := NewSession cfg userAgent accountId fresh now
  let mk := fun (sessionId : String) (userId : Option String) (db1 : DB) =>
    let te := NewAccessToken mac cfg.jwtSecret cfg.jwtAccessTTL sessionId kind accountId userId now
    ((Except.ok ⟨te.1, session.RefreshTokenHash, (te.2 - now) * 1000⟩ :
        Except UCErr AccessTokenResp), db1)
  if kind = "guest" then
    if f.createSessionFail then (.error .storeFail, db)
    else
      let r := createGuestSession db now session
      mk r.1 none r.2
  else
    match accountId with
    | none =>
      if f.createSessionFail then (.error .storeFail, db)
      else
        let r := createGuestSession db now session
        mk r.1 none r.2
    | some aid =>
      if f.getProfileIdFail then (.error .storeFail, db)
      else
        match getIdByAccountId db aid with
        | none => (.error .noRows, db)
        | some userId =>
          if f.createSessionFail then (.error .storeFail, db)
          else
            let r := createUserSession db now session
            mk r.1 (some userId) r.2

/-- SignInResult carries the fields of `SignInResponse` the claims can
observe. -/
structure SignInResult where
  Name : String
  Email : String
  Token : String
  RefreshToken : String
  ExpiresIn : Int
deriving DecidableEq, Repr

/-- SignIn mirrors `authUsecase.SignIn`.  The bcrypt comparison
collaborator is the explicit `cmp` parameter (stored hash, candidate
password); `ComparePassword` collapses any mismatch to
`ErrInvalidCreds`.  The revocation of the prior device session
tolerates `pgx.ErrNoRows`. -/
def SignIn (cfg : AuthConfig) (f : Faults) (mac : String → String → String)
    (cmp : String → String → Bool) (db : DB) (now : Int)
    (email password userAgent : String) (fresh : String) :
    Except UCErr SignInResult × DB :=
  let email := normalizeEmail email
  match getAuthByEmail db email with
  | .error e => (.error e, db)
  | .ok auth =>
    if auth.isLocked then (.error .locked, db)
    else if ¬ cmp auth.passwordHash password then (.error .invalidCreds, db)
    else
      if f.revokeFail then (.error .storeFail, db)
      else
        let db1 := match revokeSessionByAccountId db now auth.accountId userAgent with
          | .error _ => db
          | .ok db2 => db2
        match createSessionToken cfg f mac db1 now "user" userAgent (some auth.accountId) fresh with
        | (.error e, db2) => (.error e, db2)
        | (.ok at_, db2) =>
          (.ok ⟨auth.name, auth.email, at_.Token, at_.RefreshToken, at_.ExpiresInMs⟩, db2)

/-- SignInGuest mirrors `authUsecase.SignInGuest`: guest flag, then the
soft-failing rate gate over the trailing sixty seconds, then a guest
session and token pair. -/
def SignInGuest (cfg : AuthConfig) (f : Faults) (mac : String → String → String)
    (db : DB) (now : Int) (userAgent : String) (fresh : String) :
    Except UCErr AccessTokenResp × DB :=
  if ¬ cfg.guestEnabled then (.error .guestDisabled, db)
  else
    let limited :=
      if 0 < cfg.guestRatePerMinute then
        if f.countFail then false
        else decide (cfg.guestRatePerMinute ≤ countRecentGuestByUsertAgent db userAgent (now - 60))
      else false
    if limited then (.error .guestLimited, db)
    else createSessionToken cfg f mac db now "guest" userAgent none fresh

/-- SignOut mirrors `authUsecase.SignOut`: revoke by id, treating
`pgx.ErrNoRows` (absent or already revoked) as success. -/
def SignOut (f : Faults) (db : DB) (now : Int) (sessionId : String) :
    Except UCErr Unit × DB :=
  if f.revokeFail then (.error .storeFail, db)
  else
    match revokeSessionById db now sessionId with
    | .error .noRows => (.ok (), db)
    | .error e => (.error (repoToUC e), db)
    | .ok db1 => (.ok (), db1)

/-- RefreshToken mirrors `authUsecase.RefreshToken`: look up the live
session by refresh hash (`pgx.ErrNoRows` becomes
`ErrExpiredRefreshToken`), revoke it (any revocation error is
propagated as-is), then mint a replacement session and token pair with
the original kind, user agent and account binding. -/
def RefreshToken (cfg : AuthConfig) (f : Faults) (mac : String → String → String)
    (db : DB) (now : Int) (refreshToken : String) (fresh : String) :
    Except UCErr AccessTokenResp × DB :=
  match getSessionByRefreshToken db now refreshToken with
  | none => (.error .expiredRefreshToken, db)
  | some session =>
    if f.revokeFail then (.error .storeFail, db)
    else
      match revokeSessionById db now session.ID with
      | .error e => (.error (repoToUC e), db)
      | .ok db1 =>
        createSessionToken cfg f mac db1 now session.Kind session.UserAgent session.AccountID fresh

/-- exceptIsOk observes success of a fallible call. -/
def exceptIsOk : Except ε α → Bool
  | .ok _ => true
  | .error _ => false

/-- nonRevokedFor counts the non-revoked sessions bound to one
account/user-agent pair. -/
def nonRevokedFor (db : DB) (accountId userAgent : String) : Nat :=
  (db.sessions.filter (fun s =>
    decide (s.AccountID = some accountId ∧ s.UserAgent = userAgent ∧ s.RevokedAt = none))).length

/-- strContains decides whether `needle` occurs as a contiguous
substring of `hay`. -/
def strContains (hay needle : String) : Bool :=
  (List.range (hay.toList.length + 1)).any
    (fun i => needle.toList.isPrefixOf (hay.toList.drop i))

/-- jwtHeaderEnc is the encoded header segment every issued token
starts with. -/
def jwtHeaderEnc : String := b64urlEncode (utf8Bytes jwtHeaderJson)

/-- jwtPayloadEnc is the encoded payload segment for a claim set. -/
def jwtPayloadEnc (c : Claim) : String := b64urlEncode (utf8Bytes (jsonMarshalClaim c))

/-- jwtData is the two-segment signing input of signJWT. -/
def jwtData (c : Claim) : String := jwtHeaderEnc ++ "." ++ jwtPayloadEnc c

theorem signJWT_eq (mac : String → String → String) (c : Claim) (secret : String) :
    signJWT mac c secret = jwtData c ++ "." ++ mac (jwtData c) secret := rfl

theorem b64Char_ne_dot (n : Nat) : b64Char n ≠ '.' := by
  by_cases h : n < b64Alphabet.length
  · have : ∀ m : Nat, m < 64 → b64Char m ≠ '.' := by decide
    exact this n (by simpa [b64Alphabet] using h)
  · unfold b64Char
    rw [List.getD_eq_default _ _ (le_of_not_lt h)]
    decide

theorem mem_b64EncodeChunks {c : Char} :
    ∀ bs : List Nat, c ∈ b64EncodeChunks bs → ∃ n, c = b64Char n := by
  intro bs
  induction bs using b64EncodeChunks.induct with
  | case1 => intro h; simp [b64EncodeChunks] at h
  | case2 b1 =>
    intro h
    simp [b64EncodeChunks] at h
    rcases h with h | h <;> exact ⟨_, h⟩
  | case3 b1 b2 =>
    intro h
    simp [b64EncodeChunks] at h
    rcases h with h | h | h <;> exact ⟨_, h⟩
  | case4 b1 b2 b3 rest ih =>
    intro h
    simp [b64EncodeChunks] at h
    rcases h with h | h | h | h | h
    · exact ⟨_, h⟩
    · exact ⟨_, h⟩
    · exact ⟨_, h⟩
    · exact ⟨_, h⟩
    · exact ih h

theorem no_dot_b64urlEncode (bs : List Nat) : '.' ∉ (b64urlEncode bs).toList := by
  intro hmem
  obtain ⟨n, hn⟩ := mem_b64EncodeChunks bs hmem
  exact b64Char_ne_dot n hn.symm

theorem goSplitAux_no_dot :
    ∀ (l acc : List Char), (∀ c ∈ l, c ≠ '.') →
      goSplitAux l acc = [String.mk (acc.reverse ++ l)] := by
  intro l
  induction l with
  | nil => intro acc _; simp [goSplitAux]
  | cons c rest ih =>
    intro acc hnd
    have hc : c ≠ '.' := hnd c (by simp)
    simp only [goSplitAux, if_neg hc]
    rw [ih (c :: acc) (fun x hx => hnd x (by simp [hx]))]
    simp

theorem goSplitAux_dot :
    ∀ (l1 : List Char) (acc l2 : List Char), (∀ c ∈ l1, c ≠ '.') →
      goSplitAux (l1 ++ '.' :: l2) acc =
        String.mk (acc.reverse ++ l1) :: goSplitAux l2 [] := by
  intro l1
  induction l1 with
  | nil => intro acc l2 _; simp [goSplitAux]
  | cons c rest ih =>
    intro acc l2 hnd
    have hc : c ≠ '.' := hnd c (by simp)
    simp only [List.cons_append, goSplitAux, if_neg hc, List.append_eq]
    rw [ih (c :: acc) l2 (fun x hx => hnd x (by simp [hx]))]
    simp

theorem goSplit_three (a b c : String)
    (ha : ∀ x ∈ a.toList, x ≠ '.') (hb : ∀ x ∈ b.toList, x ≠ '.')
    (hc : ∀ x ∈ c.toList, x ≠ '.') :
    goSplit (a ++ "." ++ b ++ "." ++ c) = [a, b, c] := by
  have hdata : (a ++ "." ++ b ++ "." ++ c).toList
      = a.toList ++ '.' :: (b.toList ++ '.' :: c.toList) := by
    simp [String.toList, String.data_append]
  unfold goSplit
  rw [hdata, goSplitAux_dot a.toList [] _ ha]
  rw [goSplitAux_dot b.toList [] _ hb]
  rw [goSplitAux_no_dot c.toList [] hc]
  simp

/-- C2: for every token string and secret, VerifyJWT classifies
failures in order: a token that does not split on dots into exactly
three parts is InvalidToken; a three-part token whose third part
differs from the HMAC of the first two is InvalidSignature; a
correctly signed token whose payload fails base64url decoding or JSON
parsing, or whose decoded subject is empty, is InvalidToken; a
correctly signed, well-formed token with current time strictly greater
than its Exp is ExpiredToken; otherwise the decoded claims are
returned. -/
theorem C2_verify_classification (mac : String → String → String)
    (parseClaim : List Nat → Option Claim) (now : Int) (token secret : String) :
    ((goSplit token).length ≠ 3 →
      VerifyJWT mac parseClaim now token secret = .error .invalidToken)
  ∧ (∀ p0 p1 p2, goSplit token = [p0, p1, p2] →
      mac (p0 ++ "." ++ p1) secret ≠ p2 →
      VerifyJWT mac parseClaim now token secret = .error .invalidSignature)
  ∧ (∀ p0 p1 p2, goSplit token = [p0, p1, p2] →
      mac (p0 ++ "." ++ p1) secret = p2 →
      (b64urlDecode p1 = none ∨
       (∃ bs, b64urlDecode p1 = some bs ∧ parseClaim bs = none) ∨
       (∃ bs c, b64urlDecode p1 = some bs ∧ parseClaim bs = some c ∧ c.Sub = "")) →
      VerifyJWT mac parseClaim now token secret = .error .invalidToken)
  ∧ (∀ p0 p1 p2 bs c, goSplit token = [p0, p1, p2] →
      mac (p0 ++ "." ++ p1) secret = p2 →
      b64urlDecode p1 = some bs → parseClaim bs = some c → c.Sub ≠ "" →
      c.Exp < now →
      VerifyJWT mac parseClaim now token secret = .error .expiredToken)
  ∧ (∀ p0 p1 p2 bs c, goSplit token = [p0, p1, p2] →
      mac (p0 ++ "." ++ p1) secret = p2 →
      b64urlDecode p1 = some bs → parseClaim bs = some c → c.Sub ≠ "" →
      now ≤ c.Exp →
      VerifyJWT mac parseClaim now token secret = .ok c) := by
  refine ⟨?_, ?_, ?_, ?_, ?_⟩
  · intro hlen
    unfold VerifyJWT
    rcases hg : goSplit token with _ | ⟨p0, _ | ⟨p1, _ | ⟨p2, _ | ⟨p3, t⟩⟩⟩⟩ <;>
      first
        | rfl
        | (exact absurd (by rw [hg]; rfl) hlen)
  · intro p0 p1 p2 hsplit hneq
    unfold VerifyJWT
    rw [hsplit]
    simp only [if_neg hneq]
  · intro p0 p1 p2 hsplit heq hbad
    unfold VerifyJWT
    rw [hsplit]
    simp only [if_pos heq]
    rcases hbad with hdec | ⟨bs, hdec, hparse⟩ | ⟨bs, c, hdec, hparse, hsub⟩
    · rw [hdec]
    · simp [hdec, hparse]
    · simp [hdec, hparse, hsub]
  · intro p0 p1 p2 bs c hsplit heq hdec hparse hsub hexp
    unfold VerifyJWT
    rw [hsplit]
    simp only [if_pos heq]
    simp [hdec, hparse, hsub, hexp]
  · intro p0 p1 p2 bs c hsplit heq hdec hparse hsub hexp
    unfold VerifyJWT
    rw [hsplit]
    simp only [if_pos heq]
    simp [hdec, hparse, hsub, not_lt.mpr hexp]

/-- claimC2 is a concrete claim set used to exercise the expiry
branches of the classification. -/
def claimC2 : Claim := ⟨"s1", none, none, "guest", 0, 10⟩

/-- tokC2 is a correctly signed concrete token carrying `claimC2`. -/
def tokC2 : String :=
  "a." ++ jwtPayloadEnc claimC2 ++ "." ++ macModel ("a." ++ jwtPayloadEnc claimC2) "k"

/-- Witness for C2: each classification branch fires at a concrete
token under the concrete collaborator models. -/
theorem C2_verify_classification_witness :
    VerifyJWT macModel jsonParseClaimModel 0 "abc" "k" = .error .invalidToken
  ∧ VerifyJWT macModel jsonParseClaimModel 0 "a.b.c" "k" = .error .invalidSignature
  ∧ VerifyJWT macModel jsonParseClaimModel 0 ("a.b." ++ macModel "a.b" "k") "k"
      = .error .invalidToken
  ∧ VerifyJWT macModel jsonParseClaimModel 11 tokC2 "k" = .error .expiredToken
  ∧ VerifyJWT macModel jsonParseClaimModel 10 tokC2 "k" = .ok claimC2 := by
  refine ⟨?_, ?_, ?_, ?_, ?_⟩
  · exact (C2_verify_classification macModel jsonParseClaimModel 0 "abc" "k").1
      (by decide)
  · exact (C2_verify_classification macModel jsonParseClaimModel 0 "a.b.c" "k").2.1
      "a" "b" "c" (by decide) (by decide)
  · exact (C2_verify_classification macModel jsonParseClaimModel 0
      ("a.b." ++ macModel "a.b" "k") "k").2.2.1
      "a" "b" (macModel "a.b" "k") (by decide) (by decide)
      (Or.inl (by decide))
  · exact (C2_verify_classification macModel jsonParseClaimModel 11 tokC2 "k").2.2.2.1
      "a" (jwtPayloadEnc claimC2) (macModel ("a." ++ jwtPayloadEnc claimC2) "k")
      (utf8Bytes (jsonMarshalClaim claimC2)) claimC2
      (by decide) (by decide) (by decide) (by decide) (by decide) (by decide)
  · exact (C2_verify_classification macModel jsonParseClaimModel 10 tokC2 "k").2.2.2.2
      "a" (jwtPayloadEnc claimC2) (macModel ("a." ++ jwtPayloadEnc claimC2) "k")
      (utf8Bytes (jsonMarshalClaim claimC2)) claimC2
      (by decide) (by decide) (by decide) (by decide) (by decide) (by decide)

theorem b64Char_mem (n : Nat) : b64Char n ∈ b64Alphabet := by
  by_cases h : n < b64Alphabet.length
  · have hall : ∀ m : Nat, m < 64 → b64Char m ∈ b64Alphabet := by decide
    exact hall n (by simpa [b64Alphabet] using h)
  · unfold b64Char
    rw [List.getD_eq_default _ _ (le_of_not_lt h)]
    decide

theorem b64Index_b64Char : ∀ n : Nat, n < 64 → b64Index (b64Char n) = some n := by
  decide

theorem b64_filter_id (bs : List Nat) :
    (b64EncodeChunks bs).filter (fun c => c != '\r' && c != '\n') = b64EncodeChunks bs := by
  apply List.filter_eq_self.mpr
  intro a ha
  obtain ⟨n, hn⟩ := mem_b64EncodeChunks bs ha
  have hmem := b64Char_mem n
  rw [← hn] at hmem
  have hforall : ∀ c ∈ b64Alphabet, (c != '\r' && c != '\n') = true := by decide
  exact hforall _ hmem

theorem b64_roundtrip : ∀ bs : List Nat, (∀ b ∈ bs, b < 256) →
    b64urlDecode (b64urlEncode bs) = some bs := by
  intro bs
  unfold b64urlDecode b64urlEncode
  rw [show (String.mk (b64EncodeChunks bs)).toList = b64EncodeChunks bs from rfl]
  rw [b64_filter_id]
  induction bs using b64EncodeChunks.induct with
  | case1 => intro _; rfl
  | case2 b1 =>
    intro hlt
    have h1 : b1 < 256 := hlt b1 (by simp)
    simp only [b64EncodeChunks, b64DecodeChunks]
    rw [b64Index_b64Char _ (by omega), b64Index_b64Char _ (by omega)]
    simp only [Option.bind_eq_bind, Option.some_bind]
    congr 2
    omega
  | case3 b1 b2 =>
    intro hlt
    have h1 : b1 < 256 := hlt b1 (by simp)
    have h2 : b2 < 256 := hlt b2 (by simp)
    simp only [b64EncodeChunks, b64DecodeChunks]
    rw [b64Index_b64Char _ (by omega), b64Index_b64Char _ (by omega),
        b64Index_b64Char _ (by omega)]
    simp only [Option.bind_eq_bind, Option.some_bind]
    congr 1
    have e1 : b1 / 4 * 4 + (b1 % 4 * 16 + b2 / 16) / 16 = b1 := by omega
    have e2 : (b1 % 4 * 16 + b2 / 16) % 16 * 16 + b2 % 16 * 4 / 4 = b2 := by omega
    rw [e1, e2]
  | case4 b1 b2 b3 rest ih =>
    intro hlt
    have h1 : b1 < 256 := hlt b1 (by simp)
    have h2 : b2 < 256 := hlt b2 (by simp)
    have h3 : b3 < 256 := hlt b3 (by simp)
    have hrest := ih (fun b hb => hlt b (by simp [hb]))
    simp only [b64EncodeChunks, b64DecodeChunks]
    rw [b64Index_b64Char _ (by omega), b64Index_b64Char _ (by omega),
        b64Index_b64Char _ (by omega), b64Index_b64Char _ (by omega)]
    simp only [Option.bind_eq_bind, Option.some_bind]
    rw [hrest]
    simp only [Option.some_bind]
    have e1 : b1 / 4 * 4 + (b1 % 4 * 16 + b2 / 16) / 16 = b1 := by omega
    have e2 : (b1 % 4 * 16 + b2 / 16) % 16 * 16 + (b2 % 16 * 4 + b3 / 64) / 4 = b2 := by
      omega
    have e3 : (b2 % 16 * 4 + b3 / 64) % 4 * 64 + b3 % 64 = b3 := by omega
    rw [e1, e2, e3]
    rfl

theorem char_toNat_lt (c : Char) : c.toNat < 1114112 := by
  have h : c.val.toNat < 55296 ∨ (57344 ≤ c.val.toNat ∧ c.val.toNat < 1114112) := c.valid
  rcases h with h | h
  · exact Nat.lt_trans h (by norm_num)
  · exact h.2

theorem utf8Bytes_lt (s : String) : ∀ b ∈ utf8Bytes s, b < 256 := by
  intro b hb
  unfold utf8Bytes at hb
  rw [List.mem_flatMap] at hb
  obtain ⟨c, _, hc⟩ := hb
  have hbound := char_toNat_lt c
  simp only [charUtf8] at hc
  split_ifs at hc <;> simp at hc <;> omega

deriving instance DecidableEq for Except

/-- C8 counterexample: a guest access token issued with ttl = 0 and
verified at the very instant of issuance does NOT fail with
ExpiredToken — verification succeeds and returns the claims, because
the expiry check `now > Exp` is strict and `Exp = now`. -/
theorem C8_counterexample :
    VerifyJWT macModel jsonParseClaimModel 1000
      (NewAccessToken macModel "k" 0 "s1" "guest" none none 1000).1 "k"
      = .ok ⟨"s1", none, none, "guest", 1000, 1000⟩
  ∧ VerifyJWT macModel jsonParseClaimModel 1000
      (NewAccessToken macModel "k" 0 "s1" "guest" none none 1000).1 "k"
      ≠ .error .expiredToken := by
  constructor
  · decide
  · decide

/-- C8 amended: a token issued with ttl = 0 verifies successfully at
the instant of issuance (the expiry check is strict), and fails with
ExpiredToken at every strictly later time.  The HMAC and JSON
collaborators are arbitrary subject to the signature text containing
no dot and the parser inverting the marshalled payload. -/
theorem C8_ttl_zero_expiry (mac : String → String → String)
    (parseClaim : List Nat → Option Claim) (secret sid kind : String)
    (aid uid : Option String) (now : Int)
    (hsub : sid ≠ "")
    (hdot : ∀ x ∈ (mac (jwtData (accessTokenClaims 0 sid kind aid uid now)) secret).toList,
      x ≠ '.')
    (hparse : parseClaim (utf8Bytes (jsonMarshalClaim (accessTokenClaims 0 sid kind aid uid now)))
      = some (accessTokenClaims 0 sid kind aid uid now)) :
    VerifyJWT mac parseClaim now
      (NewAccessToken mac secret 0 sid kind aid uid now).1 secret
      = .ok (accessTokenClaims 0 sid kind aid uid now)
  ∧ ∀ now2 : Int, now < now2 →
      VerifyJWT mac parseClaim now2
        (NewAccessToken mac secret 0 sid kind aid uid now).1 secret
        = .error .expiredToken := by
  have hnodot : ∀ (bs : List Nat), ∀ x ∈ (b64urlEncode bs).toList, x ≠ '.' := by
    intro bs x hx he
    exact no_dot_b64urlEncode bs (he ▸ hx)
  have htok : (NewAccessToken mac secret 0 sid kind aid uid now).1
      = jwtHeaderEnc ++ "." ++ jwtPayloadEnc (accessTokenClaims 0 sid kind aid uid now)
        ++ "." ++ mac (jwtData (accessTokenClaims 0 sid kind aid uid now)) secret := rfl
  have hsplit : goSplit (NewAccessToken mac secret 0 sid kind aid uid now).1
      = [jwtHeaderEnc, jwtPayloadEnc (accessTokenClaims 0 sid kind aid uid now),
         mac (jwtData (accessTokenClaims 0 sid kind aid uid now)) secret] := by
    rw [htok]
    exact goSplit_three _ _ _ (hnodot _) (hnodot _) hdot
  have hdec : b64urlDecode (jwtPayloadEnc (accessTokenClaims 0 sid kind aid uid now))
      = some (utf8Bytes (jsonMarshalClaim (accessTokenClaims 0 sid kind aid uid now))) :=
    b64_roundtrip _ (utf8Bytes_lt _)
  have hc : mac (jwtHeaderEnc ++ "." ++ jwtPayloadEnc (accessTokenClaims 0 sid kind aid uid now)) secret
      = mac (jwtData (accessTokenClaims 0 sid kind aid uid now)) secret := rfl
  have h1 : ¬ (accessTokenClaims 0 sid kind aid uid now).Sub = "" := hsub
  constructor
  · unfold VerifyJWT
    rw [hsplit]
    have h2 : ¬ now > (accessTokenClaims 0 sid kind aid uid now).Exp := by
      simp [accessTokenClaims]
    simp [hc, hdec, hparse, h1, h2]
  · intro now2 hlt
    unfold VerifyJWT
    rw [hsplit]
    have h2 : now2 > (accessTokenClaims 0 sid kind aid uid now).Exp := by
      simpa [accessTokenClaims] using hlt
    simp [hc, hdec, hparse, h1, h2]

/-- Witness for the amended C8 theorem at a concrete guest token. -/
theorem C8_ttl_zero_expiry_witness :
    VerifyJWT macModel jsonParseClaimModel 1000
      (NewAccessToken macModel "k" 0 "s1" "guest" none none 1000).1 "k"
      = .ok (accessTokenClaims 0 "s1" "guest" none none 1000)
  ∧ VerifyJWT macModel jsonParseClaimModel 1001
      (NewAccessToken macModel "k" 0 "s1" "guest" none none 1000).1 "k"
      = .error .expiredToken := by
  have h := C8_ttl_zero_expiry macModel jsonParseClaimModel "k" "s1" "guest"
    none none 1000 (by decide) (by decide) (by decide)
  exact ⟨h.1, h.2 1001 (by decide)⟩

theorem string_data_ext {a b : String} (h : a.data = b.data) : a = b := by
  cases a
  cases b
  exact congrArg String.mk h

/-- C9 counterexample: the serialized claims payload of an issued guest
token does not have the shape the claim states.  At a concrete guest
claim set the keys are the capitalized Go field names (the substring
`"Sub"` occurs and `"sub"` does not), and the absent account id is
serialized as an explicit `"Aid":null` rather than omitted. -/
theorem C9_counterexample :
    jsonMarshalClaim ⟨"s1", none, none, "guest", 5, 10⟩
      = "\x7b\"Sub\":\"s1\",\"Aid\":null,\"Uid\":null,\"Kind\":\"guest\",\"Iat\":5,\"Exp\":10\x7d"
  ∧ strContains (jsonMarshalClaim ⟨"s1", none, none, "guest", 5, 10⟩) "\"Aid\":null" = true
  ∧ strContains (jsonMarshalClaim ⟨"s1", none, none, "guest", 5, 10⟩) "\"Sub\"" = true
  ∧ strContains (jsonMarshalClaim ⟨"s1", none, none, "guest", 5, 10⟩) "\"sub\"" = false
  ∧ (goSplit (NewAccessToken macModel "k" 5 "s1" "guest" none none 5).1).getD 1 ""
      = jwtPayloadEnc ⟨"s1", none, none, "guest", 5, 10⟩ := by
  refine ⟨by decide, by decide, by decide, by decide, by decide⟩

/-- C9 amended: the claims built by NewAccessToken carry Unix-seconds
issued-at `now` and expiry `now + ttl`; the token's payload segment is
the base64url encoding of the marshalled claims; and the
serialization emits the capitalized Go field names `Sub`, `Aid`,
`Uid`, `Kind`, `Iat`, `Exp` in declaration order, rendering absent
Aid/Uid as explicit `null`, never omitting them. -/
theorem C9_claims_serialization (mac : String → String → String)
    (secret : String) (ttl : Int) (sid kind : String)
    (aid uid : Option String) (now : Int) :
    (accessTokenClaims ttl sid kind aid uid now).Iat = now
  ∧ (accessTokenClaims ttl sid kind aid uid now).Exp = now + ttl
  ∧ (NewAccessToken mac secret ttl sid kind aid uid now).1
      = jwtHeaderEnc ++ "." ++ jwtPayloadEnc (accessTokenClaims ttl sid kind aid uid now)
        ++ "." ++ mac (jwtData (accessTokenClaims ttl sid kind aid uid now)) secret
  ∧ (∃ b, jsonMarshalClaim (accessTokenClaims ttl sid kind aid uid now)
      = "\x7b\"Sub\":" ++ b)
  ∧ (aid = none → ∃ a b, jsonMarshalClaim (accessTokenClaims ttl sid kind aid uid now)
      = a ++ "\"Aid\":null" ++ b)
  ∧ (uid = none → ∃ a b, jsonMarshalClaim (accessTokenClaims ttl sid kind aid uid now)
      = a ++ "\"Uid\":null" ++ b)
  ∧ (∃ a b, jsonMarshalClaim (accessTokenClaims ttl sid kind aid uid now)
      = a ++ ("\"Iat\":" ++ toString now) ++ b)
  ∧ (∃ a b, jsonMarshalClaim (accessTokenClaims ttl sid kind aid uid now)
      = a ++ ("\"Exp\":" ++ toString (now + ttl)) ++ b) := by
  refine ⟨rfl, rfl, rfl, ?_, ?_, ?_, ?_, ?_⟩
  · refine ⟨jsonQuote sid ++ ",\"Aid\":" ++ jsonNullable aid ++ ",\"Uid\":" ++
      jsonNullable uid ++ ",\"Kind\":" ++ jsonQuote kind ++ ",\"Iat\":" ++
      toString now ++ ",\"Exp\":" ++ toString (now + ttl) ++ "\x7d", ?_⟩
    apply string_data_ext
    simp [jsonMarshalClaim, accessTokenClaims, String.data_append, List.append_assoc]
  · intro ha
    subst ha
    refine ⟨"\x7b\"Sub\":" ++ jsonQuote sid ++ ",",
      ",\"Uid\":" ++ jsonNullable uid ++ ",\"Kind\":" ++ jsonQuote kind ++
      ",\"Iat\":" ++ toString now ++ ",\"Exp\":" ++ toString (now + ttl) ++ "\x7d", ?_⟩
    apply string_data_ext
    simp [jsonMarshalClaim, accessTokenClaims, jsonNullable, String.data_append,
      List.append_assoc]
  · intro hu
    subst hu
    refine ⟨"\x7b\"Sub\":" ++ jsonQuote sid ++ ",\"Aid\":" ++ jsonNullable aid ++ ",",
      ",\"Kind\":" ++ jsonQuote kind ++ ",\"Iat\":" ++ toString now ++
      ",\"Exp\":" ++ toString (now + ttl) ++ "\x7d", ?_⟩
    apply string_data_ext
    simp [jsonMarshalClaim, accessTokenClaims, jsonNullable, String.data_append,
      List.append_assoc]
  · refine ⟨"\x7b\"Sub\":" ++ jsonQuote sid ++ ",\"Aid\":" ++ jsonNullable aid ++
      ",\"Uid\":" ++ jsonNullable uid ++ ",\"Kind\":" ++ jsonQuote kind ++ ",",
      ",\"Exp\":" ++ toString (now + ttl) ++ "\x7d", ?_⟩
    apply string_data_ext
    simp [jsonMarshalClaim, accessTokenClaims, String.data_append, List.append_assoc]
  · refine ⟨"\x7b\"Sub\":" ++ jsonQuote sid ++ ",\"Aid\":" ++ jsonNullable aid ++
      ",\"Uid\":" ++ jsonNullable uid ++ ",\"Kind\":" ++ jsonQuote kind ++
      ",\"Iat\":" ++ toString now ++ ",", "\x7d", ?_⟩
    apply string_data_ext
    simp [jsonMarshalClaim, accessTokenClaims, String.data_append, List.append_assoc]

/-- Witness for the amended C9 theorem at a concrete guest claim. -/
theorem C9_claims_serialization_witness :
    (accessTokenClaims 5 "s1" "guest" none none 5).Iat = 5
  ∧ (∃ a b, jsonMarshalClaim (accessTokenClaims 5 "s1" "guest" none none 5)
      = a ++ "\"Aid\":null" ++ b)
  ∧ (∃ a b, jsonMarshalClaim (accessTokenClaims 5 "s1" "guest" none none 5)
      = a ++ "\"Uid\":null" ++ b) := by
  have h := C9_claims_serialization macModel "k" 5 "s1" "guest" none none 5
  exact ⟨h.1, h.2.2.2.2.1 rfl, h.2.2.2.2.2.1 rfl⟩

/-- dbC6 is a store holding one already-revoked session. -/
def dbC6 : DB := ⟨[], [], [⟨"s0", none, "guest", "h0", 10, 100, "X", some 5, 0⟩], 1⟩

/-- C6 counterexample: the store adapter's revoke-by-id returns the
store's no-rows error — not success — both for a session that is
already revoked and for a session id that does not exist. -/
theorem C6_counterexample :
    revokeSessionById dbC6 20 "s0" = .error .noRows
  ∧ revokeSessionById dbC6 20 "absent" = .error .noRows := by
  refine ⟨by decide, by decide⟩

/-- C6 amended: revoke-by-id sets revoked-at only on a row whose
revoked-at is currently null, and when the session is absent or
already revoked it returns the store's no-rows error with the state
unchanged; the SignOut caller translates that error into success,
making sign-out total and idempotent at the usecase level. -/
theorem C6_revoke_by_id_semantics (db : DB) (now now2 : Int) (sessionId : String) :
    ((∀ s ∈ db.sessions, s.ID = sessionId → s.RevokedAt ≠ none) →
      revokeSessionById db now sessionId = .error .noRows)
  ∧ (∀ db1, revokeSessionById db now sessionId = .ok db1 →
      ∀ s ∈ db.sessions, s.RevokedAt ≠ none → s ∈ db1.sessions)
  ∧ (SignOut noFaults db now sessionId).1 = .ok ()
  ∧ (SignOut noFaults (SignOut noFaults db now sessionId).2 now2 sessionId).2
      = (SignOut noFaults db now sessionId).2 := by
  have hrevoked_target : ∀ s : Session, s.RevokedAt ≠ none →
      revokeTarget sessionId s = false := by
    intro s hs
    simp only [revokeTarget, decide_eq_false_iff_not]
    rintro ⟨-, h2⟩
    exact hs h2
  refine ⟨?_, ?_, ?_, ?_⟩
  · intro hall
    have hany : db.sessions.any (revokeTarget sessionId) = false := by
      rw [List.any_eq_false]
      intro s hs
      simp only [revokeTarget, decide_eq_true_eq]
      rintro ⟨h1, h2⟩
      exact hall s hs h1 h2
    simp [revokeSessionById, hany]
  · intro db1 hok s hs hrev
    unfold revokeSessionById at hok
    by_cases hany : db.sessions.any (revokeTarget sessionId)
    · rw [if_pos hany] at hok
      injection hok with hok
      rw [← hok]
      simp only [List.mem_map]
      exact ⟨s, hs, by rw [hrevoked_target s hrev]; rfl⟩
    · rw [if_neg hany] at hok
      exact absurd hok (by simp)
  · unfold SignOut revokeSessionById
    by_cases hany : db.sessions.any (revokeTarget sessionId) <;> simp [hany, noFaults]
  · unfold SignOut revokeSessionById
    by_cases hany : db.sessions.any (revokeTarget sessionId)
    · have hnone : (db.sessions.map (fun s =>
          if revokeTarget sessionId s then { s with RevokedAt := some now } else s)).any
            (revokeTarget sessionId) = false := by
        rw [List.any_eq_false]
        intro t ht
        rw [List.mem_map] at ht
        obtain ⟨s, hs, hts⟩ := ht
        by_cases hr : revokeTarget sessionId s
        · rw [← hts, if_pos hr]
          simp [hrevoked_target { s with RevokedAt := some now } (by simp)]
        · rw [← hts, if_neg hr]
          simpa using hr
      simp [hany, hnone, noFaults]
    · simp [hany, noFaults]

/-- Witness for the amended C6 theorem: at a concrete store the
adapter errors on a benign target while SignOut succeeds and is
idempotent. -/
theorem C6_revoke_by_id_semantics_witness :
    revokeSessionById dbC6 20 "s0" = .error .noRows
  ∧ (SignOut noFaults dbC6 20 "s0").1 = .ok ()
  ∧ (SignOut noFaults (SignOut noFaults dbC6 20 "s0").2 30 "s0").2
      = (SignOut noFaults dbC6 20 "s0").2 := by
  have h := C6_revoke_by_id_semantics dbC6 20 30 "s0"
  exact ⟨h.1 (by decide), h.2.2.1, h.2.2.2⟩

/-- C4: SignUp is transactional.  A unique-email collision yields
AccountExists with the original state observable; every failing
execution (account insert, profile insert, or commit failure) leaves
the state unchanged, so no account row without a profile row is ever
committed; a successful execution commits the account together with a
profile row referencing it. -/
theorem C4_signup_atomicity (f : Faults) (db : DB) (req : SignUpRequest) (hash : String) :
    (f.createAccountFail = false →
      (∃ a ∈ db.accounts, a.email = normalizeEmail req.email) →
      SignUp f db req hash = (.error .accountExists, db))
  ∧ (∀ e, (SignUp f db req hash).1 = .error e → (SignUp f db req hash).2 = db)
  ∧ ((SignUp f db req hash).1 = .ok () →
      ∃ aid, (∃ a ∈ (SignUp f db req hash).2.accounts,
                a.id = aid ∧ a.email = normalizeEmail req.email)
           ∧ (∃ u ∈ (SignUp f db req hash).2.users, u.accountId = aid)) := by
  refine ⟨?_, ?_, ?_⟩
  · intro hcf hex
    have hany : db.accounts.any (fun a => a.email == normalizeEmail req.email) = true := by
      rw [List.any_eq_true]
      obtain ⟨a, ha, he⟩ := hex
      exact ⟨a, ha, by simp [he]⟩
    simp [SignUp, hcf, createAccount, hany, repoToUC]
  · intro e
    by_cases h1 : f.createAccountFail
    · simp [SignUp, h1]
    · by_cases h2 : db.accounts.any (fun a => a.email == normalizeEmail req.email)
      · simp [SignUp, createAccount, h1, h2]
      · by_cases h3 : f.createUserFail
        · simp [SignUp, createAccount, h1, h2, h3]
        · by_cases h4 : db.users.any (fun u => u.accountId == freshId db)
          · simp [SignUp, createAccount, createUser, h1, h2, h3, h4]
          · by_cases h5 : f.commitFail <;>
              simp [SignUp, createAccount, createUser, h1, h2, h3, h4, h5]
  · intro hok
    by_cases h1 : f.createAccountFail
    · simp [SignUp, h1] at hok
    · by_cases h2 : db.accounts.any (fun a => a.email == normalizeEmail req.email)
      · simp [SignUp, createAccount, h1, h2, repoToUC] at hok
      · by_cases h3 : f.createUserFail
        · simp [SignUp, createAccount, h1, h2, h3] at hok
        · by_cases h4 : db.users.any (fun u => u.accountId == freshId db)
          · simp [SignUp, createAccount, createUser, h1, h2, h3, h4, repoToUC] at hok
          · by_cases h5 : f.commitFail
            · simp [SignUp, createAccount, createUser, h1, h2, h3, h4, h5] at hok
            · refine ⟨freshId db, ?_, ?_⟩
              · refine ⟨⟨freshId db, normalizeEmail req.email, hash, false⟩, ?_, rfl, rfl⟩
                simp [SignUp, createAccount, createUser, h1, h2, h3, h4, h5]
              · refine ⟨⟨freshId { db with
                    accounts := db.accounts ++
                      [⟨freshId db, normalizeEmail req.email, hash, false⟩],
                    nextId := db.nextId + 1 }, freshId db, goTrimSpace req.name⟩, ?_, rfl⟩
                simp [SignUp, createAccount, createUser, h1, h2, h3, h4, h5]

/-- Witness for C4: at a concrete store, a colliding email fails with
AccountExists leaving the store unchanged, a simulated profile-insert
fault leaves the store unchanged, and a clean run commits account and
profile together. -/
theorem C4_signup_atomicity_witness :
    SignUp noFaults ⟨[⟨"a1", "a@b.com", "h", false⟩], [⟨"u1", "a1", "A"⟩], [], 2⟩
        ⟨" A@b.com", "pw", "B"⟩ "h2"
      = (.error .accountExists, ⟨[⟨"a1", "a@b.com", "h", false⟩], [⟨"u1", "a1", "A"⟩], [], 2⟩)
  ∧ (SignUp ⟨false, true, false, false, false, false, false⟩
        ⟨[⟨"a1", "a@b.com", "h", false⟩], [⟨"u1", "a1", "A"⟩], [], 2⟩
        ⟨"new@b.com", "pw", "B"⟩ "h2").2
      = ⟨[⟨"a1", "a@b.com", "h", false⟩], [⟨"u1", "a1", "A"⟩], [], 2⟩
  ∧ ∃ aid,
      (∃ a ∈ (SignUp noFaults ⟨[⟨"a1", "a@b.com", "h", false⟩], [⟨"u1", "a1", "A"⟩], [], 2⟩
            ⟨"new@b.com", "pw", "B"⟩ "h2").2.accounts,
          a.id = aid ∧ a.email = normalizeEmail "new@b.com")
    ∧ (∃ u ∈ (SignUp noFaults ⟨[⟨"a1", "a@b.com", "h", false⟩], [⟨"u1", "a1", "A"⟩], [], 2⟩
            ⟨"new@b.com", "pw", "B"⟩ "h2").2.users, u.accountId = aid) := by
  refine ⟨?_, ?_, ?_⟩
  · exact (C4_signup_atomicity noFaults _ _ _).1 rfl
      ⟨⟨"a1", "a@b.com", "h", false⟩, by decide, by decide⟩
  · exact (C4_signup_atomicity ⟨false, true, false, false, false, false, false⟩ _ _ _).2.1
      .storeFail (by decide)
  · exact (C4_signup_atomicity noFaults _ _ _).2.2 (by decide)

/-- C3: sign-in with an unknown email and sign-in with a known email
but failing password comparison return the identical InvalidCredentials
error value; a located locked account yields AccountLocked for every
password-comparison function, i.e. before any password comparison is
consulted. -/
theorem C3_signin_errors (cfg : AuthConfig) (f : Faults)
    (mac : String → String → String) (db : DB) (now : Int)
    (email password userAgent fresh : String) :
    ((∀ a ∈ db.accounts, a.email ≠ normalizeEmail email) →
      ∀ cmp : String → String → Bool,
        (SignIn cfg f mac cmp db now email password userAgent fresh).1
          = .error .invalidCreds)
  ∧ (∀ auth, getAuthByEmail db (normalizeEmail email) = .ok auth →
      auth.isLocked = false →
      ∀ cmp : String → String → Bool, cmp auth.passwordHash password = false →
        (SignIn cfg f mac cmp db now email password userAgent fresh).1
          = .error .invalidCreds)
  ∧ (∀ auth, getAuthByEmail db (normalizeEmail email) = .ok auth →
      auth.isLocked = true →
      ∀ cmp : String → String → Bool,
        (SignIn cfg f mac cmp db now email password userAgent fresh).1
          = .error .locked) := by
  refine ⟨?_, ?_, ?_⟩
  · intro hno cmp
    have hfind : db.accounts.find? (fun a => a.email == normalizeEmail email) = none := by
      rw [List.find?_eq_none]
      intro a ha
      simp [hno a ha]
    simp [SignIn, getAuthByEmail, hfind]
  · intro auth hauth hlock cmp hcmp
    simp [SignIn, hauth, hlock, hcmp]
  · intro auth hauth hlock cmp
    simp [SignIn, hauth, hlock]

/-- dbC3 is a store with one unlocked and one locked account, each
with a profile row. -/
def dbC3 : DB :=
  ⟨[⟨"a1", "a@b.com", "pw", false⟩, ⟨"a2", "l@b.com", "pw", true⟩],
   [⟨"u1", "a1", "A"⟩, ⟨"u2", "a2", "L"⟩], [], 3⟩

/-- Witness for C3 at a concrete store: unknown email and wrong
password produce the identical error; the locked account produces
AccountLocked. -/
theorem C3_signin_errors_witness :
    (SignIn ⟨"k", 10, 100, true, 3⟩ noFaults macModel (fun h p => h == p)
        dbC3 0 "unknown@x.com" "anything" "X" "f1").1 = .error .invalidCreds
  ∧ (SignIn ⟨"k", 10, 100, true, 3⟩ noFaults macModel (fun h p => h == p)
        dbC3 0 "a@b.com" "wrong" "X" "f1").1 = .error .invalidCreds
  ∧ (SignIn ⟨"k", 10, 100, true, 3⟩ noFaults macModel (fun h p => h == p)
        dbC3 0 "l@b.com" "pw" "X" "f1").1 = .error .locked := by
  refine ⟨?_, ?_, ?_⟩
  · exact (C3_signin_errors ⟨"k", 10, 100, true, 3⟩ noFaults macModel dbC3 0
      "unknown@x.com" "anything" "X" "f1").1 (by decide) _
  · exact (C3_signin_errors ⟨"k", 10, 100, true, 3⟩ noFaults macModel dbC3 0
      "a@b.com" "wrong" "X" "f1").2.1 ⟨"a1", "a@b.com", "pw", false, "A"⟩
      (by decide) rfl _ (by decide)
  · exact (C3_signin_errors ⟨"k", 10, 100, true, 3⟩ noFaults macModel dbC3 0
      "l@b.com" "pw" "X" "f1").2.2 ⟨"a2", "l@b.com", "pw", true, "L"⟩
      (by decide) rfl _

/-- C5: with guest sign-in enabled and a positive per-minute ceiling,
SignInGuest fails with GuestRateLimited exactly when the counting query
succeeded and the count of guest sessions created by this user agent in
the trailing sixty seconds is at or above the ceiling; a counting error
is treated as under the limit and sign-in proceeds; and the count is
independent of sessions created by other user agents. -/
theorem C5_guest_rate_limit (cfg : AuthConfig) (f : Faults)
    (mac : String → String → String) (db : DB) (now : Int) (ua fresh : String)
    (hen : cfg.guestEnabled = true) (hrate : 0 < cfg.guestRatePerMinute) :
    ((SignInGuest cfg f mac db now ua fresh).1 = .error .guestLimited ↔
      (f.countFail = false ∧
       cfg.guestRatePerMinute ≤ countRecentGuestByUsertAgent db ua (now - 60)))
  ∧ (f.createSessionFail = false →
      (f.countFail = true ∨
       countRecentGuestByUsertAgent db ua (now - 60) < cfg.guestRatePerMinute) →
      exceptIsOk (SignInGuest cfg f mac db now ua fresh).1 = true)
  ∧ (∀ s2 : Session, s2.UserAgent ≠ ua →
      countRecentGuestByUsertAgent { db with sessions := s2 :: db.sessions } ua (now - 60)
        = countRecentGuestByUsertAgent db ua (now - 60)) := by
  refine ⟨?_, ?_, ?_⟩
  · by_cases hcf : f.countFail
    · constructor
      · intro hlim
        by_cases hcs : f.createSessionFail <;>
          simp [SignInGuest, hen, hrate, hcf, createSessionToken, hcs] at hlim
      · rintro ⟨hcf2, -⟩
        rw [hcf] at hcf2
        cases hcf2
    · by_cases hle : cfg.guestRatePerMinute ≤ countRecentGuestByUsertAgent db ua (now - 60)
      · constructor
        · intro _
          exact ⟨by simpa using hcf, hle⟩
        · intro _
          simp [SignInGuest, hen, hrate, hcf, hle]
      · constructor
        · intro hlim
          by_cases hcs : f.createSessionFail <;>
            simp [SignInGuest, hen, hrate, hcf, hle, createSessionToken, hcs] at hlim
        · rintro ⟨-, hle2⟩
          exact absurd hle2 hle
  · intro hcs hunder
    rcases hunder with hcf | hlt
    · simp [SignInGuest, hen, hrate, hcf, createSessionToken, hcs, exceptIsOk]
    · have hle : ¬ cfg.guestRatePerMinute ≤ countRecentGuestByUsertAgent db ua (now - 60) :=
        not_le.mpr hlt
      by_cases hcf : f.countFail
      · simp [SignInGuest, hen, hrate, hcf, createSessionToken, hcs, exceptIsOk]
      · simp [SignInGuest, hen, hrate, hcf, hle, createSessionToken, hcs, exceptIsOk]
  · intro s2 hne
    simp [countRecentGuestByUsertAgent, List.filter_cons, hne]

/-- dbC5 is a store holding three guest sessions for user agent X
created within the last minute. -/
def dbC5 : DB :=
  ⟨[], [],
   [⟨"g1", none, "guest", "r1", 110, 200, "X", none, 98⟩,
    ⟨"g2", none, "guest", "r2", 110, 200, "X", none, 99⟩,
    ⟨"g3", none, "guest", "r3", 110, 200, "X", none, 100⟩], 3⟩

/-- Witness for C5 with ceiling three: a fourth guest sign-in from
user agent X inside the window is rate limited while user agent Y
succeeds. -/
theorem C5_guest_rate_limit_witness :
    (SignInGuest ⟨"k", 10, 100, true, 3⟩ noFaults macModel dbC5 100 "X" "h4").1
      = .error .guestLimited
  ∧ exceptIsOk (SignInGuest ⟨"k", 10, 100, true, 3⟩ noFaults macModel dbC5 100 "Y" "h5").1
      = true := by
  constructor
  · exact (C5_guest_rate_limit ⟨"k", 10, 100, true, 3⟩ noFaults macModel dbC5 100 "X" "h4"
      rfl (by decide)).1.mpr ⟨rfl, by decide⟩
  · exact (C5_guest_rate_limit ⟨"k", 10, 100, true, 3⟩ noFaults macModel dbC5 100 "Y" "h5"
      rfl (by decide)).2.1 rfl (Or.inr (by decide))

/-- dbC10 is a store holding one live guest session. -/
def dbC10 : DB := ⟨[], [], [⟨"s0", none, "guest", "f1", 10, 100, "X", none, 0⟩], 1⟩

/-- C10 counterexample: when the revocation update itself fails after
a successful lookup, RefreshToken returns an error while the original
session is still NOT revoked — the submitted credential is not
consumed, contradicting the claim that the session remains revoked for
every post-lookup failure. -/
theorem C10_counterexample :
    RefreshToken ⟨"k", 10, 100, true, 3⟩ ⟨false, false, false, true, false, false, false⟩
        macModel dbC10 3 "f1" "g1" = (.error .storeFail, dbC10)
  ∧ ∀ t ∈ dbC10.sessions, t.RevokedAt = none := by
  refine ⟨by decide, by decide⟩

/-- C10 amended: RefreshToken revokes the matched session before
creating the replacement.  When a step after a successful revocation
fails — profile id resolution (fault or missing row) or the new
session insert — RefreshToken returns an error while the matched
session is left revoked and no replacement session was inserted: the
credential is consumed with no token pair issued.  When the revocation
update itself fails, RefreshToken returns an error with the state
unchanged and the session not yet revoked. -/
theorem C10_refresh_error_after_revoke (cfg : AuthConfig) (f : Faults)
    (mac : String → String → String) (db : DB) (now : Int) (h fresh : String) (s : Session)
    (hfind : getSessionByRefreshToken db now h = some s)
    (hrf : f.revokeFail = false)
    (hfail : f.createSessionFail = true ∨
      (s.Kind ≠ "guest" ∧ s.AccountID ≠ none ∧ f.getProfileIdFail = true)) :
    exceptIsOk (RefreshToken cfg f mac db now h fresh).1 = false
  ∧ (∀ t ∈ (RefreshToken cfg f mac db now h fresh).2.sessions,
      t.ID = s.ID → t.RevokedAt ≠ none)
  ∧ (RefreshToken cfg f mac db now h fresh).2.sessions.length = db.sessions.length := by
  have hmem : s ∈ db.sessions := List.mem_of_find?_eq_some hfind
  have hlive : sessionLiveForRefresh h now s = true := List.find?_some hfind
  have hrev : s.RevokedAt = none := by
    have hl := of_decide_eq_true hlive
    exact hl.2.1
  have hany : db.sessions.any (revokeTarget s.ID) = true := by
    rw [List.any_eq_true]
    exact ⟨s, hmem, by simp [revokeTarget, hrev]⟩
  have hrevoke : revokeSessionById db now s.ID = .ok
      { db with sessions := db.sessions.map (fun t =>
          if revokeTarget s.ID t then { t with RevokedAt := some now } else t) } := by
    simp [revokeSessionById, hany]
  have hrt : RefreshToken cfg f mac db now h fresh
      = createSessionToken cfg f mac
          { db with sessions := db.sessions.map (fun t =>
              if revokeTarget s.ID t then { t with RevokedAt := some now } else t) }
          now s.Kind s.UserAgent s.AccountID fresh := by
    simp [RefreshToken, hfind, hrf, hrevoke]
  have hstate : ∀ t ∈ db.sessions.map (fun t =>
      if revokeTarget s.ID t then { t with RevokedAt := some now } else t),
      t.ID = s.ID → t.RevokedAt ≠ none := by
    intro t ht hid
    rw [List.mem_map] at ht
    obtain ⟨t0, ht0, hteq⟩ := ht
    by_cases hr : revokeTarget s.ID t0
    · rw [← hteq] at hid ⊢
      rw [if_pos hr]
      simp
    · rw [← hteq] at hid ⊢
      rw [if_neg hr] at hid ⊢
      simp only [revokeTarget, decide_eq_true_eq] at hr
      intro hnone
      exact hr ⟨hid, hnone⟩
  have hres : ∃ e : UCErr, RefreshToken cfg f mac db now h fresh
      = (.error e,
         { db with sessions := db.sessions.map (fun t =>
             if revokeTarget s.ID t then { t with RevokedAt := some now } else t) }) := by
    rw [hrt]
    rcases hfail with hcs | ⟨hkind, haid, hpf⟩
    · by_cases hk : s.Kind = "guest"
      · exact ⟨.storeFail, by simp [createSessionToken, hk, hcs]⟩
      · rcases ha : s.AccountID with _ | aid
        · exact ⟨.storeFail, by simp [createSessionToken, hk, ha, hcs]⟩
        · by_cases hpf2 : f.getProfileIdFail
          · exact ⟨.storeFail, by simp [createSessionToken, hk, ha, hpf2]⟩
          · rcases hg : getIdByAccountId { db with sessions := db.sessions.map (fun t =>
                if revokeTarget s.ID t then { t with RevokedAt := some now } else t) } aid
              with _ | uid
            · exact ⟨.noRows, by simp [createSessionToken, hk, ha, hpf2, hg]⟩
            · exact ⟨.storeFail, by simp [createSessionToken, hk, ha, hpf2, hg, hcs]⟩
    · obtain ⟨aid, ha⟩ := Option.ne_none_iff_exists'.mp haid
      exact ⟨.storeFail, by simp [createSessionToken, hkind, ha, hpf]⟩
  obtain ⟨e, he⟩ := hres
  rw [he]
  exact ⟨rfl, hstate, by simp⟩

/-- Witness for the amended C10 theorem: a faulted session insert after
a successful lookup and revocation leaves the matched session revoked
with no replacement inserted. -/
theorem C10_refresh_error_after_revoke_witness :
    exceptIsOk (RefreshToken ⟨"k", 10, 100, true, 3⟩
        ⟨false, false, false, false, false, true, false⟩
        macModel dbC10 3 "f1" "g1").1 = false
  ∧ (∀ t ∈ (RefreshToken ⟨"k", 10, 100, true, 3⟩
        ⟨false, false, false, false, false, true, false⟩
        macModel dbC10 3 "f1" "g1").2.sessions,
      t.ID = (⟨"s0", none, "guest", "f1", 10, 100, "X", none, 0⟩ : Session).ID →
        t.RevokedAt ≠ none)
  ∧ (RefreshToken ⟨"k", 10, 100, true, 3⟩
        ⟨false, false, false, false, false, true, false⟩
        macModel dbC10 3 "f1" "g1").2.sessions.length = dbC10.sessions.length :=
  C10_refresh_error_after_revoke ⟨"k", 10, 100, true, 3⟩
    ⟨false, false, false, false, false, true, false⟩ macModel dbC10 3 "f1" "g1"
    ⟨"s0", none, "guest", "f1", 10, 100, "X", none, 0⟩
    (by decide) rfl (Or.inl rfl)

theorem createSessionToken_ok_sessions (cfg : AuthConfig) (f : Faults)
    (mac : String → String → String) (db : DB) (now : Int)
    (kind ua : String) (accountId : Option String) (fresh : String)
    (hok : exceptIsOk (createSessionToken cfg f mac db now kind ua accountId fresh).1
      = true) :
    ∃ newS : Session,
      (createSessionToken cfg f mac db now kind ua accountId fresh).2.sessions
        = db.sessions ++ [newS]
      ∧ newS.RefreshTokenHash = fresh := by
  by_cases hk : kind = "guest"
  · by_cases hcs : f.createSessionFail
    · simp [createSessionToken, hk, hcs, exceptIsOk] at hok
    · refine ⟨⟨freshId db, none, "guest", fresh, now + cfg.jwtAccessTTL,
        now + cfg.jwtRefreshTTL, ua, none, now⟩, ?_, rfl⟩
      simp [createSessionToken, hk, hcs, createGuestSession, NewSession]
  · rcases ha : accountId with _ | aid
    · by_cases hcs : f.createSessionFail
      · simp [createSessionToken, hk, ha, hcs, exceptIsOk] at hok
      · refine ⟨⟨freshId db, none, "guest", fresh, now + cfg.jwtAccessTTL,
          now + cfg.jwtRefreshTTL, ua, none, now⟩, ?_, rfl⟩
        simp [createSessionToken, hk, ha, hcs, createGuestSession, NewSession]
    · by_cases hpf : f.getProfileIdFail
      · simp [createSessionToken, hk, ha, hpf, exceptIsOk] at hok
      · rcases hg : getIdByAccountId db aid with _ | uid
        · simp [createSessionToken, hk, ha, hpf, hg, exceptIsOk] at hok
        · by_cases hcs : f.createSessionFail
          · simp [createSessionToken, hk, ha, hpf, hg, hcs, exceptIsOk] at hok
          · refine ⟨⟨freshId db, some aid, "user", fresh, now + cfg.jwtAccessTTL,
              now + cfg.jwtRefreshTTL, ua, none, now⟩, ?_, rfl⟩
            simp [createSessionToken, hk, ha, hpf, hg, hcs, createUserSession, NewSession]

/-- C1: after one successful RefreshToken call that matched a session
by its refresh credential, a second call submitting the same
credential fails with ExpiredRefreshToken and leaves the state
unchanged: the first call revoked the matched session and the lookup
filters out revoked sessions, so the old credential is never accepted
twice.  The fresh credential minted by the first call is assumed
distinct from the submitted one and the submitted credential is
assumed to identify at most one stored session (both guaranteed by
256-bit randomness of credentials). -/
theorem C1_refresh_single_use (cfg : AuthConfig) (f1 f2 : Faults)
    (mac : String → String → String) (db : DB) (now1 now2 : Int)
    (h fresh1 fresh2 : String)
    (hok : exceptIsOk (RefreshToken cfg f1 mac db now1 h fresh1).1 = true)
    (hfresh : fresh1 ≠ h)
    (huniq : ∀ s1 ∈ db.sessions, ∀ s2 ∈ db.sessions,
      s1.RefreshTokenHash = h → s2.RefreshTokenHash = h → s1 = s2) :
    RefreshToken cfg f2 mac ((RefreshToken cfg f1 mac db now1 h fresh1).2) now2 h fresh2
      = (.error .expiredRefreshToken, (RefreshToken cfg f1 mac db now1 h fresh1).2) := by
  rcases hfind : getSessionByRefreshToken db now1 h with _ | s
  · rw [RefreshToken] at hok
    rw [hfind] at hok
    simp [exceptIsOk] at hok
  · have hmem : s ∈ db.sessions := List.mem_of_find?_eq_some hfind
    have hlivb : sessionLiveForRefresh h now1 s = true := List.find?_some hfind
    have hlive := of_decide_eq_true hlivb
    have hhash : s.RefreshTokenHash = h := hlive.1
    have hrev : s.RevokedAt = none := hlive.2.1
    by_cases hrf : f1.revokeFail
    · rw [RefreshToken] at hok
      rw [hfind] at hok
      simp [hrf, exceptIsOk] at hok
    · have hany : db.sessions.any (revokeTarget s.ID) = true := by
        rw [List.any_eq_true]
        exact ⟨s, hmem, by simp [revokeTarget, hrev]⟩
      have hrevoke : revokeSessionById db now1 s.ID = .ok
          { db with sessions := db.sessions.map (fun t =>
              if revokeTarget s.ID t then { t with RevokedAt := some now1 } else t) } := by
        simp [revokeSessionById, hany]
      have hrt : RefreshToken cfg f1 mac db now1 h fresh1
          = createSessionToken cfg f1 mac
              { db with sessions := db.sessions.map (fun t =>
                  if revokeTarget s.ID t then { t with RevokedAt := some now1 } else t) }
              now1 s.Kind s.UserAgent s.AccountID fresh1 := by
        simp [RefreshToken, hfind, hrf, hrevoke]
      rw [hrt] at hok ⊢
      obtain ⟨newS, hsess, hnhash⟩ := createSessionToken_ok_sessions cfg f1 mac _ now1
        s.Kind s.UserAgent s.AccountID fresh1 hok
      have hnone : getSessionByRefreshToken
          (createSessionToken cfg f1 mac
            { db with sessions := db.sessions.map (fun t =>
                if revokeTarget s.ID t then { t with RevokedAt := some now1 } else t) }
            now1 s.Kind s.UserAgent s.AccountID fresh1).2 now2 h = none := by
        unfold getSessionByRefreshToken
        rw [List.find?_eq_none]
        intro t ht
        rw [hsess] at ht
        rw [List.mem_append] at ht
        rcases ht with ht | ht
        · rw [List.mem_map] at ht
          obtain ⟨t0, ht0, hteq⟩ := ht
          by_cases ht0h : t0.RefreshTokenHash = h
          · have ht0s : t0 = s := huniq t0 ht0 s hmem ht0h hhash
            subst ht0s
            have hr : revokeTarget t0.ID t0 = true := by simp [revokeTarget, hrev]
            rw [← hteq, if_pos hr]
            simp [sessionLiveForRefresh]
          · have : t.RefreshTokenHash = t0.RefreshTokenHash := by
              rw [← hteq]
              by_cases hr : revokeTarget s.ID t0 <;> simp [hr]
            simp [sessionLiveForRefresh, this, ht0h]
        · rw [List.mem_singleton] at ht
          subst ht
          simp [sessionLiveForRefresh, hnhash, hfresh]
      rw [RefreshToken]
      rw [hnone]

/-- dbC1 is a store holding one live guest session whose refresh
credential is f1. -/
def dbC1 : DB := ⟨[], [], [⟨"s0", none, "guest", "f1", 10, 100, "X", none, 0⟩], 1⟩

/-- Witness for C1: a concrete second refresh with the spent
credential fails with ExpiredRefreshToken. -/
theorem C1_refresh_single_use_witness :
    RefreshToken ⟨"k", 10, 100, true, 3⟩ noFaults macModel
        ((RefreshToken ⟨"k", 10, 100, true, 3⟩ noFaults macModel dbC1 3 "f1" "g1").2)
        4 "f1" "g2"
      = (.error .expiredRefreshToken,
         (RefreshToken ⟨"k", 10, 100, true, 3⟩ noFaults macModel dbC1 3 "f1" "g1").2) :=
  C1_refresh_single_use ⟨"k", 10, 100, true, 3⟩ noFaults noFaults macModel dbC1 3 4
    "f1" "g1" "g2" (by decide) (by decide) (by decide)

/-- dbC7 is a store with one account and profile and no sessions. -/
def dbC7 : DB := ⟨[⟨"a1", "a@b.com", "pw", false⟩], [⟨"u1", "a1", "A"⟩], [], 0⟩

/-- C7 counterexample: two sequential successful sign-ins for the same
account and user agent, the second after the first session's access
expiry, leave TWO non-revoked sessions for the pair — the revocation
filter `expires_at > NOW()` skips the expired-but-unrevoked first
session. -/
theorem C7_counterexample :
    exceptIsOk (SignIn ⟨"k", 10, 100, true, 3⟩ noFaults macModel (fun a b => a == b)
        dbC7 0 "a@b.com" "pw" "X" "f1").1 = true
  ∧ exceptIsOk (SignIn ⟨"k", 10, 100, true, 3⟩ noFaults macModel (fun a b => a == b)
        (SignIn ⟨"k", 10, 100, true, 3⟩ noFaults macModel (fun a b => a == b)
          dbC7 0 "a@b.com" "pw" "X" "f1").2
        20 "a@b.com" "pw" "X" "f2").1 = true
  ∧ nonRevokedFor (SignIn ⟨"k", 10, 100, true, 3⟩ noFaults macModel (fun a b => a == b)
        (SignIn ⟨"k", 10, 100, true, 3⟩ noFaults macModel (fun a b => a == b)
          dbC7 0 "a@b.com" "pw" "X" "f1").2
        20 "a@b.com" "pw" "X" "f2").2 "a1" "X" = 2 := by
  refine ⟨by decide, by decide, by decide⟩

theorem getAuthByEmail_profile (db : DB) (email : String) (auth : AuthRow)
    (hauth : getAuthByEmail db email = .ok auth) :
    ∃ uid, getIdByAccountId db auth.accountId = some uid := by
  unfold getAuthByEmail at hauth
  rcases hfa : db.accounts.find? (fun a => a.email == email) with _ | a
  · simp [hfa] at hauth
  · simp only [hfa] at hauth
    rcases hfu : db.users.find? (fun u => u.accountId == a.id) with _ | u
    · simp [hfu] at hauth
    · simp only [hfu] at hauth
      injection hauth with he
      refine ⟨u.id, ?_⟩
      rw [← he]
      simp [getIdByAccountId, hfu]

/-- C7 amended: two sequential successful sign-ins for the same
account and user agent leave exactly one non-revoked session for that
pair, provided no non-revoked session for the pair pre-exists and the
second sign-in happens strictly before the first session's access
expiry (the sign-in revocation only matches sessions whose access
expiry is still in the future). -/
theorem C7_device_single_session (cfg : AuthConfig)
    (mac : String → String → String) (cmp : String → String → Bool)
    (db : DB) (t1 t2 : Int) (email password ua fresh1 fresh2 : String) (auth : AuthRow)
    (hauth : getAuthByEmail db (normalizeEmail email) = .ok auth)
    (hlock : auth.isLocked = false)
    (hcmp : cmp auth.passwordHash password = true)
    (hno : ∀ s ∈ db.sessions, s.AccountID = some auth.accountId → s.UserAgent = ua →
      s.RevokedAt ≠ none)
    (ht : t2 < t1 + cfg.jwtAccessTTL) :
    exceptIsOk (SignIn cfg noFaults mac cmp db t1 email password ua fresh1).1 = true
  ∧ exceptIsOk (SignIn cfg noFaults mac cmp
      (SignIn cfg noFaults mac cmp db t1 email password ua fresh1).2
      t2 email password ua fresh2).1 = true
  ∧ nonRevokedFor (SignIn cfg noFaults mac cmp
      (SignIn cfg noFaults mac cmp db t1 email password ua fresh1).2
      t2 email password ua fresh2).2 auth.accountId ua = 1 := by
  obtain ⟨uid, hprof⟩ := getAuthByEmail_profile db (normalizeEmail email) auth hauth
  obtain ⟨u, hfu⟩ : ∃ u, db.users.find? (fun v => v.accountId == auth.accountId) = some u := by
    unfold getIdByAccountId at hprof
    rcases hfu : db.users.find? (fun v => v.accountId == auth.accountId) with _ | u
    · rw [hfu] at hprof
      cases hprof
    · exact ⟨u, hfu⟩
  have hne : ¬ (("user" : String) = "guest") := by decide
  have hany1 : db.sessions.any (revokeByAccountTarget auth.accountId ua t1) = false := by
    rw [List.any_eq_false]
    intro s hs
    simp only [revokeByAccountTarget, decide_eq_true_eq]
    rintro ⟨h1, h2, h3, -⟩
    exact hno s hs h1 h2 h3
  have hrevoke1 : revokeSessionByAccountId db t1 auth.accountId ua = .error .noRows := by
    simp [revokeSessionByAccountId, hany1]
  have hsign1a : exceptIsOk (SignIn cfg noFaults mac cmp db t1 email password ua fresh1).1
      = true := by
    simp [SignIn, hauth, hlock, hcmp, noFaults, hrevoke1, createSessionToken, hne,
      getIdByAccountId, hfu, createUserSession, NewSession, exceptIsOk]
  have hsign1b : (SignIn cfg noFaults mac cmp db t1 email password ua fresh1).2
      = { db with
            sessions := db.sessions ++
              [(⟨freshId db, some auth.accountId, "user", fresh1, t1 + cfg.jwtAccessTTL,
                t1 + cfg.jwtRefreshTTL, ua, none, t1⟩ : Session)],
            nextId := db.nextId + 1 } := by
    simp [SignIn, hauth, hlock, hcmp, noFaults, hrevoke1, createSessionToken, hne,
      getIdByAccountId, hfu, createUserSession, NewSession]
  have htarget2 : revokeByAccountTarget auth.accountId ua t2
      ⟨freshId db, some auth.accountId, "user", fresh1, t1 + cfg.jwtAccessTTL,
        t1 + cfg.jwtRefreshTTL, ua, none, t1⟩ = true := by
    simp [revokeByAccountTarget, ht]
  have hany2 : (db.sessions ++
      [(⟨freshId db, some auth.accountId, "user", fresh1, t1 + cfg.jwtAccessTTL,
        t1 + cfg.jwtRefreshTTL, ua, none, t1⟩ : Session)]).any
        (revokeByAccountTarget auth.accountId ua t2) = true := by
    rw [List.any_eq_true]
    exact ⟨_, by simp, htarget2⟩
  have hauth2 : getAuthByEmail
      { db with
          sessions := db.sessions ++
            [(⟨freshId db, some auth.accountId, "user", fresh1, t1 + cfg.jwtAccessTTL,
              t1 + cfg.jwtRefreshTTL, ua, none, t1⟩ : Session)],
          nextId := db.nextId + 1 } (normalizeEmail email) = .ok auth := hauth
  have hrevoke2 : revokeSessionByAccountId
      { db with
          sessions := db.sessions ++
            [(⟨freshId db, some auth.accountId, "user", fresh1, t1 + cfg.jwtAccessTTL,
              t1 + cfg.jwtRefreshTTL, ua, none, t1⟩ : Session)],
          nextId := db.nextId + 1 } t2 auth.accountId ua
      = .ok { db with
          sessions := (db.sessions ++
            [(⟨freshId db, some auth.accountId, "user", fresh1, t1 + cfg.jwtAccessTTL,
              t1 + cfg.jwtRefreshTTL, ua, none, t1⟩ : Session)]).map
            (fun t => if revokeByAccountTarget auth.accountId ua t2 t then
              { t with RevokedAt := some t2 } else t),
          nextId := db.nextId + 1 } := by
    simp [revokeSessionByAccountId, hany2]
  have hsign2a : exceptIsOk (SignIn cfg noFaults mac cmp
      { db with
          sessions := db.sessions ++
            [(⟨freshId db, some auth.accountId, "user", fresh1, t1 + cfg.jwtAccessTTL,
              t1 + cfg.jwtRefreshTTL, ua, none, t1⟩ : Session)],
          nextId := db.nextId + 1 } t2 email password ua fresh2).1 = true := by
    simp [SignIn, hauth2, hlock, hcmp, noFaults, hrevoke2, createSessionToken, hne,
      getIdByAccountId, hfu, htarget2, createUserSession, NewSession, exceptIsOk]
  have hsign2b : (SignIn cfg noFaults mac cmp
      { db with
          sessions := db.sessions ++
            [(⟨freshId db, some auth.accountId, "user", fresh1, t1 + cfg.jwtAccessTTL,
              t1 + cfg.jwtRefreshTTL, ua, none, t1⟩ : Session)],
          nextId := db.nextId + 1 } t2 email password ua fresh2).2.sessions
      = ((db.sessions ++
            [(⟨freshId db, some auth.accountId, "user", fresh1, t1 + cfg.jwtAccessTTL,
              t1 + cfg.jwtRefreshTTL, ua, none, t1⟩ : Session)]).map
            (fun t => if revokeByAccountTarget auth.accountId ua t2 t then
              { t with RevokedAt := some t2 } else t)) ++
          [⟨freshId { db with
              sessions := ((db.sessions ++
                [(⟨freshId db, some auth.accountId, "user", fresh1, t1 + cfg.jwtAccessTTL,
                  t1 + cfg.jwtRefreshTTL, ua, none, t1⟩ : Session)]).map
                (fun t => if revokeByAccountTarget auth.accountId ua t2 t then
                  { t with RevokedAt := some t2 } else t)),
              nextId := db.nextId + 1 },
            some auth.accountId, "user", fresh2, t2 + cfg.jwtAccessTTL,
            t2 + cfg.jwtRefreshTTL, ua, none, t2⟩] := by
    simp [SignIn, hauth2, hlock, hcmp, noFaults, hrevoke2, createSessionToken, hne,
      getIdByAccountId, hfu, htarget2, createUserSession, NewSession]
  refine ⟨hsign1a, ?_, ?_⟩
  · rw [hsign1b]
    exact hsign2a
  · rw [hsign1b]
    unfold nonRevokedFor
    rw [hsign2b]
    rw [List.map_append, List.filter_append, List.filter_append]
    have hf1 : (db.sessions.map
        (fun t => if revokeByAccountTarget auth.accountId ua t2 t then
          { t with RevokedAt := some t2 } else t)).filter
        (fun s => decide (s.AccountID = some auth.accountId ∧ s.UserAgent = ua ∧
          s.RevokedAt = none)) = [] := by
      rw [List.filter_eq_nil_iff]
      intro t htm
      rw [List.mem_map] at htm
      obtain ⟨t0, ht0, hteq⟩ := htm
      by_cases hr : revokeByAccountTarget auth.accountId ua t2 t0
      · rw [← hteq, if_pos hr]
        simp
      · rw [← hteq, if_neg hr]
        simp only [decide_eq_true_eq]
        rintro ⟨h1, h2, h3⟩
        exact hno t0 ht0 h1 h2 h3
    have hf2 : (([(⟨freshId db, some auth.accountId, "user", fresh1,
        t1 + cfg.jwtAccessTTL, t1 + cfg.jwtRefreshTTL, ua, none, t1⟩ : Session)]).map
        (fun t => if revokeByAccountTarget auth.accountId ua t2 t then
          { t with RevokedAt := some t2 } else t)).filter
        (fun s => decide (s.AccountID = some auth.accountId ∧ s.UserAgent = ua ∧
          s.RevokedAt = none)) = [] := by
      simp only [List.map_cons, List.map_nil, if_pos htarget2]
      simp
    rw [hf1, hf2]
    simp

/-- Witness for the amended C7 theorem: two sign-ins nine seconds
apart (within the ten-second access TTL) leave exactly one non-revoked
session for the pair. -/
theorem C7_device_single_session_witness :
    exceptIsOk (SignIn ⟨"k", 10, 100, true, 3⟩ noFaults macModel (fun a b => a == b)
        dbC7 0 "a@b.com" "pw" "X" "f1").1 = true
  ∧ exceptIsOk (SignIn ⟨"k", 10, 100, true, 3⟩ noFaults macModel (fun a b => a == b)
        (SignIn ⟨"k", 10, 100, true, 3⟩ noFaults macModel (fun a b => a == b)
          dbC7 0 "a@b.com" "pw" "X" "f1").2
        9 "a@b.com" "pw" "X" "f2").1 = true
  ∧ nonRevokedFor (SignIn ⟨"k", 10, 100, true, 3⟩ noFaults macModel (fun a b => a == b)
        (SignIn ⟨"k", 10, 100, true, 3⟩ noFaults macModel (fun a b => a == b)
          dbC7 0 "a@b.com" "pw" "X" "f1").2
        9 "a@b.com" "pw" "X" "f2").2 "a1" "X" = 1 :=
  C7_device_single_session ⟨"k", 10, 100, true, 3⟩ macModel (fun a b => a == b)
    dbC7 0 9 "a@b.com" "pw" "X" "f1" "f2" ⟨"a1", "a@b.com", "pw", false, "A"⟩
    (by decide) rfl (by decide) (by decide) (by decide)

end Swimo
